import Mathlib

/-!
# Finance-blog-frontend: the two Redux slices

A shallow embedding of `src/app/features/blogs/postsSlice.js` and
`src/app/features/user/userSlice.js`.

The reducers are written with Redux Toolkit: a case reducer mutates an immer
draft, and a case reducer that throws leaves the store as it was. A case
reducer is therefore a function `state → payload → Except JSError state`.
The `logInfo` calls only build and emit log lines; they are left out.
-/

namespace FinanceBlog

/-! ## JavaScript values -/

/-- The values a deserialised response body can hold. Numbers are the integer
counts and ids this program meets; no arithmetic is ever done on them. -/
inductive JSValue where
  | undefined
  | null
  | bool (b : Bool)
  | num (n : Int)
  | str (s : String)
  | arr (items : List JSValue)
  | obj (fields : List (String × JSValue))

instance : Inhabited JSValue := ⟨JSValue.undefined⟩

/-- The one error the reducers can raise: reading a property of `undefined` or
`null`, or calling an array method on something that is not an array. -/
inductive JSError where
  | typeError
  deriving DecidableEq

/-- JavaScript truthiness (`if (v)`, `!v`, `v || w`, `v && w`). -/
def truthy : JSValue → Bool
  | .undefined => false
  | .null => false
  | .bool b => b
  | .num n => n != 0
  | .str s => s != ""
  | .arr _ => true
  | .obj _ => true

/-- The values `undefined` and `null`. -/
def isNullish : JSValue → Bool
  | .undefined => true
  | .null => true
  | _ => false

/-- The value of `v.key` for a `v` that is neither `undefined` nor `null`: the
entry of an object, and `undefined` for every other value (none of the keys the
slices read is a built-in property of a string, number, boolean or array). -/
def field (v : JSValue) (key : String) : JSValue :=
  match v with
  | .obj fields => (fields.lookup key).getD .undefined
  | _ => .undefined

/-- Member access `v.key`: a TypeError on `undefined` and `null`. -/
def getProp (v : JSValue) (key : String) : Except JSError JSValue :=
  if isNullish v then .error .typeError else .ok (field v key)

/-- Optional chaining `v?.key`. -/
def optProp (v : JSValue) (key : String) : JSValue :=
  if isNullish v then .undefined else field v key

/-- The operator `a || b` on values already evaluated. -/
def jsOr (a b : JSValue) : JSValue :=
  if truthy a then a else b

/-- Strict equality `a === b`. Primitives compare by value. Objects and arrays
compare by reference, and a value read through the immer draft is never the
same reference as a value carried by an action, so they compare unequal. -/
def strictEq : JSValue → JSValue → Bool
  | .undefined, .undefined => true
  | .null, .null => true
  | .bool a, .bool b => a == b
  | .num a, .num b => a == b
  | .str a, .str b => a == b
  | _, _ => false

/-- The receiver of an array method (`findIndex`, `filter`, `push`, `unshift`):
the method exists on arrays only, the call throws on anything else. -/
def asArray : JSValue → Except JSError (List JSValue)
  | .arr items => .ok items
  | _ => .error .typeError

/-- `Array.prototype.findIndex` with a callback that may throw; `none` stands
for the result `-1`. The callback runs on the elements in order and stops at the
first one it accepts. -/
def findIndex (callback : JSValue → Except JSError Bool) :
    List JSValue → Except JSError (Option Nat)
  | [] => .ok none
  | x :: rest =>
    match callback x with
    | .error e => .error e
    | .ok true => .ok (some 0)
    | .ok false =>
      match findIndex callback rest with
      | .error e => .error e
      | .ok none => .ok none
      | .ok (some i) => .ok (some (i + 1))

/-- `Array.prototype.filter` with a callback that may throw. -/
def filter (callback : JSValue → Except JSError Bool) :
    List JSValue → Except JSError (List JSValue)
  | [] => .ok []
  | x :: rest =>
    match callback x with
    | .error e => .error e
    | .ok keep =>
      match filter callback rest with
      | .error e => .error e
      | .ok kept => .ok (if keep then x :: kept else kept)

/-- The callback `(p) => p._id === target._id`. -/
def sameId (target : JSValue) (p : JSValue) : Except JSError Bool :=
  match getProp p "_id" with
  | .error e => .error e
  | .ok a =>
    match getProp target "_id" with
    | .error e => .error e
    | .ok b => .ok (strictEq a b)

/-- The callback `(post) => post._id !== id`. -/
def otherId (id : JSValue) (post : JSValue) : Except JSError Bool :=
  match getProp post "_id" with
  | .error e => .error e
  | .ok a => .ok (!strictEq a id)

/-! ## The lifecycle signals of an async thunk -/

/-- The three actions `createAsyncThunk` dispatches. -/
inductive Lifecycle where
  | pending
  | fulfilled
  | rejected
  deriving DecidableEq

/-! ## postsSlice.js -/

namespace PostsSlice

/-- The state of the `posts` slice. The three flags only ever receive boolean
literals; every other field receives whatever the payload carries. -/
structure PostsState where
  posts : JSValue
  isLoading : Bool
  isSuccess : Bool
  isError : Bool
  errorMessage : JSValue
  errorCode : JSValue
  pagination : JSValue
  count : JSValue
  total : JSValue

/-- The literal `{ next: null, total: 0, count: 0 }`. -/
def defaultPagination : JSValue :=
  .obj [("next", .null), ("total", .num 0), ("count", .num 0)]

/-- The slice's `initialState`. -/
def initialState : PostsState :=
  { posts := .arr []
    isLoading := false
    isSuccess := false
    isError := false
    errorMessage := .str ""
    errorCode := .null
    pagination := defaultPagination
    count := .num 0
    total := .num 0 }

/-- The nine thunks of the slice. -/
inductive Thunk where
  | fetchPosts
  | fetchPostById
  | upvotePost
  | downvotePost
  | fetchPostsByCategory
  | addNewPost
  | updatePost
  | deletePost
  | incrementPostView
  deriving DecidableEq

/-- The actions the slice reacts to. -/
inductive Action where
  | thunk (t : Thunk) (phase : Lifecycle) (payload : JSValue)
  | clearState
  | removePost (payload : JSValue)

/-- The helper `handlePending`. -/
def handlePending (state : PostsState) : PostsState :=
  { state with
    isLoading := true
    isError := false
    errorMessage := .str ""
    errorCode := .null }

/-- The helper `handleRejected`. -/
def handleRejected (state : PostsState) (payload : JSValue) (defaultMessage : String) :
    PostsState :=
  { state with
    isLoading := false
    isError := true
    errorMessage := jsOr (optProp payload "message") (.str defaultMessage)
    errorCode := jsOr (optProp payload "code") (.str "UNKNOWN_ERROR") }

/-- The default message each `.rejected` case passes to `handleRejected`. -/
def defaultMessage : Thunk → String
  | .fetchPosts => "Postları getirirken hata oluştu."
  | .fetchPostById => "Tekil post getirilirken hata oluştu."
  | .upvotePost => "Upvote eklenirken hata oluştu."
  | .downvotePost => "Downvote eklenirken hata oluştu."
  | .fetchPostsByCategory => "Postları getirirken hata oluştu."
  | .addNewPost => "Post eklerken hata oluştu."
  | .updatePost => "Post güncellerken hata oluştu."
  | .deletePost => "Post silerken hata oluştu."
  | .incrementPostView => "Görüntülenme artırılırken hata oluştu."

/-- The reducer `clearState`. -/
def clearState (state : PostsState) : PostsState :=
  { state with
    isLoading := false
    isSuccess := false
    isError := false
    errorMessage := .str ""
    errorCode := .null }

/-- The reducer `removePost`. -/
def removePost (state : PostsState) (payload : JSValue) : Except JSError PostsState :=
  match asArray state.posts with
  | .error e => .error e
  | .ok posts =>
    match filter (otherId payload) posts with
    | .error e => .error e
    | .ok kept => .ok { state with posts := .arr kept }

/-- The case `fetchPosts.fulfilled`. The guard is
`action.payload && action.payload.data`; inside it every read is of a truthy
value, so nothing here can throw. -/
def fetchPostsFulfilled (state : PostsState) (payload : JSValue) : PostsState :=
  let state := { state with isLoading := false, isSuccess := true }
  if truthy payload && truthy (field payload "data") then
    let data := field payload "data"
    { state with
      posts := jsOr (field data "posts") (.arr [])
      pagination := jsOr (field data "pagination") defaultPagination
      count := jsOr (field data "count") (.num 0)
      total := jsOr (field data "total") (.num 0) }
  else
    { state with
      posts := .arr []
      pagination := defaultPagination
      count := .num 0
      total := .num 0 }

/-- The case `fetchPostById.fulfilled`. -/
def fetchPostByIdFulfilled (state : PostsState) (payload : JSValue) :
    Except JSError PostsState :=
  if !truthy payload then .ok state
  else
    let fetchedPost := payload
    match asArray state.posts with
    | .error e => .error e
    | .ok posts =>
      match findIndex (sameId fetchedPost) posts with
      | .error e => .error e
      | .ok (some index) => .ok { state with posts := .arr (posts.set index fetchedPost) }
      | .ok none => .ok { state with posts := .arr (posts ++ [fetchedPost]) }

/-- The body shared, word for word, by `upvotePost.fulfilled`,
`downvotePost.fulfilled` and `incrementPostView.fulfilled`. -/
def replaceFulfilled (state : PostsState) (payload : JSValue) : Except JSError PostsState :=
  let updatedPost := payload
  match asArray state.posts with
  | .error e => .error e
  | .ok posts =>
    match findIndex (sameId updatedPost) posts with
    | .error e => .error e
    | .ok (some index) => .ok { state with posts := .arr (posts.set index updatedPost) }
    | .ok none => .ok state

/-- The case `fetchPostsByCategory.fulfilled`. -/
def fetchPostsByCategoryFulfilled (state : PostsState) (payload : JSValue) : PostsState :=
  { state with isLoading := false, posts := payload }

/-- The case `addNewPost.fulfilled`. -/
def addNewPostFulfilled (state : PostsState) (payload : JSValue) : Except JSError PostsState :=
  match getProp payload "post" with
  | .error e => .error e
  | .ok post =>
    let newPost := jsOr post payload
    let state := { state with isLoading := false, isSuccess := true }
    match asArray state.posts with
    | .error e => .error e
    | .ok posts => .ok { state with posts := .arr (newPost :: posts) }

/-- The case `updatePost.fulfilled`. -/
def updatePostFulfilled (state : PostsState) (payload : JSValue) : Except JSError PostsState :=
  match getProp payload "post" with
  | .error e => .error e
  | .ok post =>
    let updatedPost := jsOr post payload
    let state := { state with isLoading := false, isSuccess := true }
    match asArray state.posts with
    | .error e => .error e
    | .ok posts =>
      match findIndex (sameId updatedPost) posts with
      | .error e => .error e
      | .ok (some index) => .ok { state with posts := .arr (posts.set index updatedPost) }
      | .ok none => .ok state

/-- The case `deletePost.fulfilled`. -/
def deletePostFulfilled (state : PostsState) (payload : JSValue) : Except JSError PostsState :=
  let state := { state with isLoading := false, isSuccess := true }
  match asArray state.posts with
  | .error e => .error e
  | .ok posts =>
    match filter (otherId payload) posts with
    | .error e => .error e
    | .ok kept => .ok { state with posts := .arr kept }

/-- The slice reducer: `reducers` plus the cases `extraReducers` registers. An
action with no registered case (`fetchPostById.pending`, `upvotePost.pending`,
`downvotePost.pending`, `incrementPostView.pending`) returns the state as it is. -/
def reducer (state : PostsState) : Action → Except JSError PostsState
  | .clearState => .ok (clearState state)
  | .removePost payload => removePost state payload
  | .thunk .fetchPosts .pending _ => .ok (handlePending state)
  | .thunk .fetchPosts .fulfilled payload => .ok (fetchPostsFulfilled state payload)
  | .thunk .fetchPostById .fulfilled payload => fetchPostByIdFulfilled state payload
  | .thunk .upvotePost .fulfilled payload => replaceFulfilled state payload
  | .thunk .downvotePost .fulfilled payload => replaceFulfilled state payload
  | .thunk .fetchPostsByCategory .pending _ => .ok (handlePending state)
  | .thunk .fetchPostsByCategory .fulfilled payload =>
    .ok (fetchPostsByCategoryFulfilled state payload)
  | .thunk .addNewPost .pending _ => .ok (handlePending state)
  | .thunk .addNewPost .fulfilled payload => addNewPostFulfilled state payload
  | .thunk .updatePost .pending _ => .ok (handlePending state)
  | .thunk .updatePost .fulfilled payload => updatePostFulfilled state payload
  | .thunk .deletePost .pending _ => .ok (handlePending state)
  | .thunk .deletePost .fulfilled payload => deletePostFulfilled state payload
  | .thunk .incrementPostView .fulfilled payload => replaceFulfilled state payload
  | .thunk t .rejected payload => .ok (handleRejected state payload (defaultMessage t))
  | .thunk _ .pending _ => .ok state

/-- The states the store can hold: the initial state, and every state a
dispatched action leads to. -/
inductive Reachable : PostsState → Prop where
  | init : Reachable initialState
  | step {s s' : PostsState} (a : Action) : Reachable s → reducer s a = .ok s' → Reachable s'

end PostsSlice

/-! ## userSlice.js -/

namespace UserSlice

/-- The state of the `user` slice. -/
structure UserState where
  userInfo : JSValue
  isLoggedIn : Bool
  isAdmin : Bool
  isLoading : Bool
  isSuccess : Bool
  isError : Bool
  errorMessage : JSValue

/-- The slice's `initialState`. -/
def initialState : UserState :=
  { userInfo := .null
    isLoggedIn := false
    isAdmin := false
    isLoading := false
    isSuccess := false
    isError := false
    errorMessage := .str "" }

/-- The five thunks of the slice. -/
inductive Thunk where
  | loginUser
  | logoutUser
  | fetchUser
  | registerUser
  | updateUserProfile
  deriving DecidableEq

/-- The actions the slice reacts to. -/
inductive Action where
  | thunk (t : Thunk) (phase : Lifecycle) (payload : JSValue)
  | clearState
  | clearUserState

/-- The reducer `clearState`. -/
def clearState (state : UserState) : UserState :=
  { state with
    isLoading := false
    isSuccess := false
    isError := false
    errorMessage := .str "" }

/-- The reducer `clearUserState`. -/
def clearUserState (state : UserState) : UserState :=
  { state with
    userInfo := .null
    isLoggedIn := false
    isAdmin := false
    isLoading := false
    isSuccess := false
    isError := false
    errorMessage := .str "" }

/-- The body of every `.pending` case of the slice. -/
def pendingCase (state : UserState) : UserState :=
  { state with isLoading := true }

/-- The body of every `.rejected` case of the slice, up to its fallback text. -/
def rejectedCase (state : UserState) (payload : JSValue) (fallback : String) : UserState :=
  { state with
    isLoading := false
    isError := true
    errorMessage := jsOr payload (.str fallback) }

/-- The fallback text of each `.rejected` case. -/
def fallbackMessage : Thunk → String
  | .loginUser => "Giriş başarısız."
  | .logoutUser => "Çıkış yapılamadı."
  | .fetchUser => "Kullanıcı bilgileri alınamadı."
  | .registerUser => "Registration failed."
  | .updateUserProfile => "Profil güncellenemedi."

/-- The case `loginUser.fulfilled`. Reading `action.payload.success` throws on
an absent payload; after it the payload is known to be present, and
`action.payload.data.user` is read only when `action.payload.data?.user` is
truthy. -/
def loginUserFulfilled (state : UserState) (payload : JSValue) : Except JSError UserState :=
  match getProp payload "success" with
  | .error e => .error e
  | .ok success =>
    let state :=
      if truthy success && truthy (optProp (field payload "data") "user") then
        let user := field (field payload "data") "user"
        { state with
          userInfo := user
          isAdmin := strictEq (field user "role") (.str "admin")
          isLoggedIn := true }
      else
        { state with isLoggedIn := false }
    .ok { state with isLoading := false, isSuccess := true }

/-- The case `registerUser.fulfilled`. -/
def registerUserFulfilled (state : UserState) (payload : JSValue) : Except JSError UserState :=
  match getProp payload "success" with
  | .error e => .error e
  | .ok success =>
    let state :=
      if truthy success && truthy (optProp (field payload "data") "user") then
        let user := field (field payload "data") "user"
        { state with
          userInfo := user
          isAdmin := strictEq (field user "role") (.str "admin")
          isLoggedIn := true }
      else
        { state with isLoggedIn := false }
    .ok { state with isLoading := false, isSuccess := true }

/-- The case `logoutUser.fulfilled`. -/
def logoutUserFulfilled (state : UserState) : UserState :=
  { state with
    isLoading := false
    isSuccess := true
    userInfo := .null
    isLoggedIn := false
    isAdmin := false }

/-- The case `fetchUser.fulfilled`. -/
def fetchUserFulfilled (state : UserState) (payload : JSValue) : Except JSError UserState :=
  match getProp payload "valid" with
  | .error e => .error e
  | .ok valid =>
    let isValid := !strictEq valid (.bool false)
    let state :=
      if isValid && truthy (field payload "user") then
        let user := field payload "user"
        { state with
          userInfo := user
          isAdmin := strictEq (field user "role") (.str "admin")
          isLoggedIn := true }
      else
        { state with isLoggedIn := false, isAdmin := false }
    .ok { state with isLoading := false, isSuccess := true }

/-- The case `updateUserProfile.fulfilled`. -/
def updateUserProfileFulfilled (state : UserState) (payload : JSValue) :
    Except JSError UserState :=
  match getProp payload "success" with
  | .error e => .error e
  | .ok success =>
    let state :=
      if truthy success && truthy (field payload "data") then
        { state with userInfo := field payload "data" }
      else
        state
    .ok { state with isLoading := false, isSuccess := true }

/-- The slice reducer. -/
def reducer (state : UserState) : Action → Except JSError UserState
  | .clearState => .ok (clearState state)
  | .clearUserState => .ok (clearUserState state)
  | .thunk _ .pending _ => .ok (pendingCase state)
  | .thunk t .rejected payload => .ok (rejectedCase state payload (fallbackMessage t))
  | .thunk .loginUser .fulfilled payload => loginUserFulfilled state payload
  | .thunk .registerUser .fulfilled payload => registerUserFulfilled state payload
  | .thunk .logoutUser .fulfilled _ => .ok (logoutUserFulfilled state)
  | .thunk .fetchUser .fulfilled payload => fetchUserFulfilled state payload
  | .thunk .updateUserProfile .fulfilled payload => updateUserProfileFulfilled state payload

/-- The states the store can hold. -/
inductive Reachable : UserState → Prop where
  | init : Reachable initialState
  | step {s s' : UserState} (a : Action) : Reachable s → reducer s a = .ok s' → Reachable s'

end UserSlice

/-! ## The thunks -/

/-- What `createAsyncThunk` dispatches once the payload creator settles:
`fulfilled` with the value it returns, `rejected` with the value handed to
`rejectWithValue`, and `rejected` with no payload when it throws. -/
inductive ThunkResult where
  | fulfilled (payload : JSValue)
  | rejected (payload : JSValue)

/-- What awaiting an HTTP call gives: the body of the response (the `data` of
the response object the client resolves with), or the error the client throws. -/
abbrev HttpOutcome := Except JSValue JSValue

/-- The object `new Error(message)`: it has a `message` and no `code`. The
TypeError the engine raises is such an object, with the engine's own text. -/
def newError (message : String) : JSValue :=
  .obj [("message", .str message)]

namespace PostsSlice

/-- The catch clause of every post thunk:
`rejectWithValue({ message: error.message || fallback, code: error.code || "UNKNOWN_ERROR" })`.
Reading `error.message` of a thrown `undefined` or `null` throws out of the
payload creator. -/
def rejectWithPair (fallback : String) (error : JSValue) : ThunkResult :=
  match getProp error "message" with
  | .error _ => .rejected .undefined
  | .ok message =>
    .rejected (.obj [
      ("message", jsOr message (.str fallback)),
      ("code", jsOr (field error "code") (.str "UNKNOWN_ERROR"))])

/-- The body shared by the eight thunks that `return response.data.data`. -/
def returnData (fallback : String) (engineText : String) (call : HttpOutcome) : ThunkResult :=
  match call with
  | .error error => rejectWithPair fallback error
  | .ok body =>
    match getProp body "data" with
    | .error _ => rejectWithPair fallback (newError engineText)
    | .ok data => .fulfilled data

/-- The thunk `fetchPosts`. Its argument is destructured in the parameter
list, before the `try`. -/
def fetchPosts (arg : JSValue) (call : HttpOutcome) : ThunkResult :=
  if isNullish arg then .rejected .undefined
  else
    match call with
    | .error error => rejectWithPair "Postları getirirken hata oluştu." error
    | .ok body => .fulfilled body

/-- The thunk `fetchPostById`. -/
def fetchPostById (engineText : String) (call : HttpOutcome) : ThunkResult :=
  returnData "Tekil post getirilirken hata oluştu." engineText call

/-- The thunk `upvotePost`. -/
def upvotePost (engineText : String) (call : HttpOutcome) : ThunkResult :=
  returnData "Upvote eklenirken hata oluştu." engineText call

/-- The thunk `downvotePost`. -/
def downvotePost (engineText : String) (call : HttpOutcome) : ThunkResult :=
  returnData "Downvote eklenirken hata oluştu." engineText call

/-- The thunk `fetchPostsByCategory`. -/
def fetchPostsByCategory (engineText : String) (call : HttpOutcome) : ThunkResult :=
  returnData "Postları getirirken hata oluştu." engineText call

/-- The thunk `addNewPost`. -/
def addNewPost (engineText : String) (call : HttpOutcome) : ThunkResult :=
  returnData "Post eklerken hata oluştu." engineText call

/-- The thunk `updatePost`. Its argument `{ id, postData }` is destructured in
the parameter list, before the `try`. -/
def updatePost (engineText : String) (arg : JSValue) (call : HttpOutcome) : ThunkResult :=
  if isNullish arg then .rejected .undefined
  else returnData "Post güncellerken hata oluştu." engineText call

/-- The thunk `deletePost`. -/
def deletePost (engineText : String) (call : HttpOutcome) : ThunkResult :=
  returnData "Post silerken hata oluştu." engineText call

/-- The thunk `incrementPostView`. -/
def incrementPostView (engineText : String) (call : HttpOutcome) : ThunkResult :=
  returnData "Görüntülenme artırılırken hata oluştu." engineText call

/-- The dispatcher of each of the nine operations. -/
def dispatcher (engineText : String) (arg : JSValue) (call : HttpOutcome) : Thunk → ThunkResult
  | .fetchPosts => fetchPosts arg call
  | .fetchPostById => fetchPostById engineText call
  | .upvotePost => upvotePost engineText call
  | .downvotePost => downvotePost engineText call
  | .fetchPostsByCategory => fetchPostsByCategory engineText call
  | .addNewPost => addNewPost engineText call
  | .updatePost => updatePost engineText arg call
  | .deletePost => deletePost engineText call
  | .incrementPostView => incrementPostView engineText call

end PostsSlice

namespace UserSlice

/-- The catch clause of every user thunk:
`rejectWithValue(error.message || fallback)`. -/
def rejectWithMessage (fallback : String) (error : JSValue) : ThunkResult :=
  match getProp error "message" with
  | .error _ => .rejected .undefined
  | .ok message => .rejected (jsOr message (.str fallback))

/-- The thunk `loginUser`. Its argument `{ email, password }` is destructured
in the parameter list, before the `try`. -/
def loginUser (arg : JSValue) (call : HttpOutcome) : ThunkResult :=
  if isNullish arg then .rejected .undefined
  else
    match call with
    | .error error => rejectWithMessage "Giriş başarısız." error
    | .ok body => .fulfilled body

/-- The thunk `logoutUser`. -/
def logoutUser (call : HttpOutcome) : ThunkResult :=
  match call with
  | .error error => rejectWithMessage "Çıkış yapılamadı." error
  | .ok _ => .fulfilled (.bool true)

/-- The literal `{ valid: true, user }`. -/
def validUser (user : JSValue) : JSValue :=
  .obj [("valid", .bool true), ("user", user)]

/-- The thunk `fetchUser`. `tokenCall` is the verify-token call; `userCall` is
the call `GET /user/{id}`, made only when the token's user has an id. What the
inner `try` throws is swallowed; everything else thrown reaches the outer
`catch`. -/
def fetchUser (engineText : String) (tokenCall : HttpOutcome)
    (userCall : JSValue → HttpOutcome) : ThunkResult :=
  match tokenCall with
  | .error error => rejectWithMessage "Kullanıcı bilgileri alınamadı." error
  | .ok tokenBody =>
    match getProp tokenBody "success" with
    | .error _ => rejectWithMessage "Kullanıcı bilgileri alınamadı." (newError engineText)
    | .ok success =>
      if !truthy success then
        rejectWithMessage "Kullanıcı bilgileri alınamadı." (newError "Token geçersiz.")
      else
        let userData := field tokenBody "data"
        if !truthy userData || !truthy (field userData "user") then
          rejectWithMessage "Kullanıcı bilgileri alınamadı."
            (newError "Kullanıcı bilgisi bulunamadı.")
        else
          let user := field userData "user"
          if truthy (jsOr (field user "id") (field user "_id")) then
            let userId := jsOr (field user "id") (field user "_id")
            match userCall userId with
            | .error _ => .fulfilled (validUser user)
            | .ok userBody =>
              match getProp userBody "success" with
              | .error _ => .fulfilled (validUser user)
              | .ok userSuccess =>
                if truthy userSuccess && truthy (field userBody "data") then
                  .fulfilled (validUser (field userBody "data"))
                else
                  .fulfilled (validUser user)
          else
            .fulfilled (validUser user)

/-- The thunk `registerUser`. Its argument is destructured in the parameter
list, before the `try`. -/
def registerUser (arg : JSValue) (call : HttpOutcome) : ThunkResult :=
  if isNullish arg then .rejected .undefined
  else
    match call with
    | .error error => rejectWithMessage "Registration failed." error
    | .ok body => .fulfilled body

/-- The thunk `updateUserProfile`. Its argument `{ userId, userData }` is
destructured in the parameter list, before the `try`. -/
def updateUserProfile (arg : JSValue) (call : HttpOutcome) : ThunkResult :=
  if isNullish arg then .rejected .undefined
  else
    match call with
    | .error error => rejectWithMessage "Profil güncellenemedi." error
    | .ok body => .fulfilled body

/-- The dispatcher of each of the five operations; the same outcome stands for
the one call of the four simple thunks and for both calls of `fetchUser`. -/
def dispatcher (engineText : String) (arg : JSValue) (call : HttpOutcome) : Thunk → ThunkResult
  | .loginUser => loginUser arg call
  | .logoutUser => logoutUser call
  | .fetchUser => fetchUser engineText call (fun _ => call)
  | .registerUser => registerUser arg call
  | .updateUserProfile => updateUserProfile arg call

end UserSlice

/-! ## Vocabulary of the statements -/

/-- The comparison the callback `(p) => p._id === target._id` makes when both
reads succeed. -/
def idMatches (target p : JSValue) : Bool :=
  strictEq (field p "_id") (field target "_id")

/-- The strings, numbers, booleans, `null` and `undefined`: the values strict
equality compares by value. -/
def isPrimitive : JSValue → Bool
  | .arr _ => false
  | .obj _ => false
  | _ => true

/-- Index `i` holds the first element of `ps` whose `_id` is strictly equal to
the `_id` of `target`. -/
def IsFirstMatch (target : JSValue) (ps : List JSValue) (i : Nat) : Prop :=
  ∃ hi : i < ps.length, idMatches target (ps.get ⟨i, hi⟩) = true ∧
    ∀ j (hj : j < ps.length), j < i → idMatches target (ps.get ⟨j, hj⟩) = false

/-- No element of the array is `undefined` or `null`: every element is an
entity whose properties can be read. -/
def AllPresent (ps : List JSValue) : Prop :=
  ∀ q ∈ ps, isNullish q = false

namespace UserSlice

/-- The payload of the spec's login example:
`{success:true, data:{user:{_id:"u1", role:"admin"}}}`. -/
def examplePayload : JSValue :=
  .obj [("success", .bool true),
    ("data", .obj [("user", .obj [("_id", .str "u1"), ("role", .str "admin")])])]

/-- The user embedded in the body of the verify-token response:
`tokenResponse.data.data.user`. -/
def tokenUser (tokenBody : JSValue) : JSValue :=
  field (field tokenBody "data") "user"

/-- The id the secondary call is made with: `userData.user.id || userData.user._id`. -/
def tokenUserId (tokenBody : JSValue) : JSValue :=
  jsOr (field (tokenUser tokenBody) "id") (field (tokenUser tokenBody) "_id")

/-- A user session: the state after the spec's login example. -/
def loggedIn : UserState :=
  { initialState with
    userInfo := .obj [("_id", .str "u1"), ("role", .str "admin")]
    isLoggedIn := true
    isAdmin := true
    isSuccess := true }

end UserSlice

/-- The error the HTTP client throws when the network is down:
`{message: "Network Error", code: "ERR_NETWORK"}`. -/
def networkError : JSValue :=
  .obj [("message", .str "Network Error"), ("code", .str "ERR_NETWORK")]

/-- The comparison the callback `(post) => post._id !== id` makes on a present
post: the post is kept when its `_id` is not strictly equal to `id`. -/
def keepsPost (id p : JSValue) : Bool :=
  !strictEq (field p "_id") id

/-- The list `ps'` is `ps` with `u` put in place of the first element that has
the `_id` of `u`: same length, `u` at that index, every other index as before;
and `ps'` is `ps` itself when no element has that `_id`. -/
def ReplacedAt (u : JSValue) (ps ps' : List JSValue) : Prop :=
  ps'.length = ps.length ∧
  (∀ i, IsFirstMatch u ps i → ps'[i]? = some u ∧ ∀ j, j ≠ i → ps'[j]? = ps[j]?) ∧
  ((∀ q ∈ ps, idMatches u q = false) → ps' = ps)

/-- The ids in the list are pairwise distinct under strict equality. -/
def DistinctIds (ps : List JSValue) : Prop :=
  ps.Pairwise (fun a b => strictEq (field a "_id") (field b "_id") = false)

namespace PostsSlice

/-- The payload of the spec's list example:
`{data:{posts:[{_id:"a"}], pagination:{total:1,count:1,next:null}, count:1, total:1}}`. -/
def examplePage : JSValue :=
  .obj [("data", .obj [
    ("posts", .arr [.obj [("_id", .str "a")]]),
    ("pagination", .obj [("total", .num 1), ("count", .num 1), ("next", .null)]),
    ("count", .num 1),
    ("total", .num 1)])]

/-- The post `{_id:"a"}`. -/
def postA : JSValue := .obj [("_id", .str "a")]

/-- The post `{_id:"a", title:"new"}`: the post `a` as the server returns it
after a change. -/
def postA2 : JSValue := .obj [("_id", .str "a"), ("title", .str "new")]

/-- The post `{_id:"b"}`. -/
def postB : JSValue := .obj [("_id", .str "b")]

/-- The post `{_id:{x:1}}`, whose id is an object. -/
def objectIdPost : JSValue := .obj [("_id", .obj [("x", .num 1)])]

/-- The state after `addNewPost.fulfilled` has delivered the post `a` twice. -/
def twoCopies : PostsState :=
  { initialState with posts := .arr [postA, postA], isSuccess := true }

/-- The store after an action is dispatched: the state the reducer returns,
and the state as it was when the reducer throws. -/
def dispatch (s : PostsState) (a : Action) : PostsState :=
  match reducer s a with
  | .ok s' => s'
  | .error _ => s

/-- The posts of the state are a list whose ids are pairwise distinct. -/
def HasDistinctIds (s : PostsState) : Prop :=
  ∃ ps, s.posts = .arr ps ∧ DistinctIds ps

/-- The initial state holding the given posts. -/
def stateWith (ps : List JSValue) : PostsState :=
  { initialState with posts := .arr ps }

end PostsSlice

/-! ## Facts about the array helpers -/

theorem strictEq_self {v : JSValue} (h : isPrimitive v = true) : strictEq v v = true := by
  cases v <;> simp_all [strictEq, isPrimitive]

theorem eq_of_strictEq {a b : JSValue} (h : strictEq a b = true) : a = b := by
  cases a <;> cases b <;> simp_all [strictEq]

theorem getProp_of_present {v : JSValue} (h : isNullish v = false) (key : String) :
    getProp v key = .ok (field v key) := by
  simp [getProp, h]

theorem isNullish_of_truthy {v : JSValue} (h : truthy v = true) : isNullish v = false := by
  cases v <;> simp_all [truthy, isNullish]

theorem sameId_of_present {target p : JSValue} (ht : isNullish target = false)
    (hp : isNullish p = false) : sameId target p = .ok (idMatches target p) := by
  simp [sameId, idMatches, getProp, ht, hp]

theorem otherId_of_present {id p : JSValue} (hp : isNullish p = false) :
    otherId id p = .ok (!strictEq (field p "_id") id) := by
  simp [otherId, getProp, hp]

/-- No element is accepted: `findIndex` returns `-1`. -/
theorem findIndex_none {cb : JSValue → Except JSError Bool} {ps : List JSValue}
    (h : ∀ q ∈ ps, cb q = .ok false) : findIndex cb ps = .ok none := by
  induction ps with
  | nil => rfl
  | cons x rest ih =>
    have hx : cb x = .ok false := h x (List.mem_cons_self x rest)
    have hr : findIndex cb rest = .ok none :=
      ih (fun q hq => h q (List.mem_cons_of_mem x hq))
    simp [findIndex, hx, hr]

/-- The element at `i` is accepted and none before it: `findIndex` returns `i`. -/
theorem findIndex_first {cb : JSValue → Except JSError Bool} {ps : List JSValue} {i : Nat}
    (hi : i < ps.length) (hat : cb (ps.get ⟨i, hi⟩) = .ok true)
    (hbefore : ∀ j (hj : j < ps.length), j < i → cb (ps.get ⟨j, hj⟩) = .ok false) :
    findIndex cb ps = .ok (some i) := by
  induction ps generalizing i with
  | nil => simp at hi
  | cons x rest ih =>
    cases i with
    | zero =>
      have hx : cb x = .ok true := by simpa using hat
      simp [findIndex, hx]
    | succ k =>
      have hx : cb x = .ok false := by
        simpa using hbefore 0 (Nat.zero_lt_succ _) (Nat.zero_lt_succ _)
      have hk : k < rest.length := by simpa using hi
      have hr : findIndex cb rest = .ok (some k) := by
        apply ih hk
        · simpa using hat
        · intro j hj hjk
          simpa using hbefore (j + 1) (by simpa using hj) (by omega)
      simp [findIndex, hx, hr]

/-- What a returned index says about the list. -/
theorem findIndex_some_spec {cb : JSValue → Except JSError Bool} {ps : List JSValue} {i : Nat}
    (h : findIndex cb ps = .ok (some i)) :
    ∃ hi : i < ps.length, cb (ps.get ⟨i, hi⟩) = .ok true ∧
      ∀ j (hj : j < ps.length), j < i → cb (ps.get ⟨j, hj⟩) = .ok false := by
  induction ps generalizing i with
  | nil => simp [findIndex] at h
  | cons x rest ih =>
    unfold findIndex at h
    cases hx : cb x with
    | error e => simp [hx] at h
    | ok b =>
      cases b with
      | true =>
        simp [hx] at h
        subst h
        exact ⟨by simp, by simpa using hx, by intro j _ hj; omega⟩
      | false =>
        rw [hx] at h
        cases hr : findIndex cb rest with
        | error e => simp [hr] at h
        | ok r =>
          cases r with
          | none => simp [hr] at h
          | some k =>
            simp [hr] at h
            subst h
            obtain ⟨hk, hat, hbefore⟩ := ih hr
            refine ⟨by simpa using hk, by simpa using hat, ?_⟩
            intro j hj hjk
            cases j with
            | zero => simpa using hx
            | succ m =>
              have hm : m < rest.length := by simpa using hj
              simpa using hbefore m hm (by omega)

/-- What the result `-1` says about the list. -/
theorem findIndex_none_spec {cb : JSValue → Except JSError Bool} {ps : List JSValue}
    (h : findIndex cb ps = .ok none) : ∀ q ∈ ps, cb q = .ok false := by
  induction ps with
  | nil => simp
  | cons x rest ih =>
    unfold findIndex at h
    cases hx : cb x with
    | error e => simp [hx] at h
    | ok b =>
      cases b with
      | true => simp [hx] at h
      | false =>
        rw [hx] at h
        cases hr : findIndex cb rest with
        | error e => simp [hr] at h
        | ok r =>
          cases r with
          | some k => simp [hr] at h
          | none =>
            intro q hq
            rcases List.mem_cons.mp hq with rfl | hq
            · exact hx
            · exact ih hr q hq

/-- A callback that never throws makes `filter` the list filter. -/
theorem filter_pure {cb : JSValue → Except JSError Bool} {f : JSValue → Bool}
    {ps : List JSValue} (h : ∀ q ∈ ps, cb q = .ok (f q)) :
    filter cb ps = .ok (ps.filter f) := by
  induction ps with
  | nil => rfl
  | cons x rest ih =>
    have hx : cb x = .ok (f x) := h x (List.mem_cons_self x rest)
    have hr : filter cb rest = .ok (rest.filter f) :=
      ih (fun q hq => h q (List.mem_cons_of_mem x hq))
    cases hfx : f x <;> simp [filter, hx, hr, hfx, List.filter]

/-! ## postsSlice.js: the claims -/

namespace PostsSlice

/-- C1. `fetchPosts.fulfilled` always returns, with `isLoading = false` and
`isSuccess = true`. When the payload has a `data` object, posts, pagination,
count and total are the fields of that object, each replaced by its default
(`[]`, `{next:null,total:0,count:0}`, `0`, `0`) when it is missing (falsy).
When the payload is absent or has no `data` object, all four are the defaults.
The resulting posts are the same from every prior state, and the spec's
example page yields posts `[{_id:"a"}]`, count 1 and total 1. -/
theorem fetchPosts_fulfilled_replaces_list (s : PostsState) (payload : JSValue) :
    ∃ s', reducer s (.thunk .fetchPosts .fulfilled payload) = .ok s' ∧
      s'.isLoading = false ∧ s'.isSuccess = true ∧
      (∀ fields, field payload "data" = .obj fields →
        s'.posts = (if truthy (field (.obj fields) "posts") then field (.obj fields) "posts"
          else .arr []) ∧
        s'.pagination = (if truthy (field (.obj fields) "pagination")
          then field (.obj fields) "pagination" else defaultPagination) ∧
        s'.count = (if truthy (field (.obj fields) "count") then field (.obj fields) "count"
          else .num 0) ∧
        s'.total = (if truthy (field (.obj fields) "total") then field (.obj fields) "total"
          else .num 0)) ∧
      ((∀ fields, field payload "data" ≠ .obj fields) →
        s'.posts = .arr [] ∧ s'.pagination = defaultPagination ∧
        s'.count = .num 0 ∧ s'.total = .num 0) ∧
      (∀ t : PostsState, ∃ t', reducer t (.thunk .fetchPosts .fulfilled payload) = .ok t' ∧
        t'.posts = s'.posts) ∧
      (∃ e, reducer s (.thunk .fetchPosts .fulfilled examplePage) = .ok e ∧
        e.posts = .arr [.obj [("_id", .str "a")]] ∧ e.count = .num 1 ∧ e.total = .num 1) := by
  refine ⟨fetchPostsFulfilled s payload, rfl, ?_, ?_, ?_, ?_, ?_, ?_⟩
  · unfold fetchPostsFulfilled; split <;> rfl
  · unfold fetchPostsFulfilled; split <;> rfl
  · intro fields hd
    have hp : truthy payload = true := by
      cases payload <;> simp_all [field, truthy]
    have hg : (truthy payload && truthy (field payload "data")) = true := by
      rw [hp, hd]; rfl
    unfold fetchPostsFulfilled
    rw [if_pos hg]
    simp only [hd, jsOr]
    exact ⟨trivial, trivial, trivial, trivial⟩
  · intro hd
    unfold fetchPostsFulfilled
    split
    · rename_i h
      have h2 : truthy (field payload "data") = true := by simp_all
      cases hv : field payload "data" with
      | obj fields => exact absurd hv (hd fields)
      | _ => simp_all [truthy, jsOr, field]
    · simp
  · intro t
    refine ⟨fetchPostsFulfilled t payload, rfl, ?_⟩
    unfold fetchPostsFulfilled; split <;> rfl
  · exact ⟨fetchPostsFulfilled s examplePage, rfl, rfl, rfl, rfl⟩

/-- C2. The rejected signal of each of the nine post operations always
returns; it leaves posts, pagination, count and total as they were and sets
`isLoading = false`, `isError = true`, `errorMessage` to the payload's message
when one is supplied (truthy) and to the operation's default message otherwise,
and `errorCode` to the payload's code when supplied and to `"UNKNOWN_ERROR"`
otherwise. -/
theorem rejected_records_error (s : PostsState) (t : Thunk) (payload : JSValue) :
    ∃ s', reducer s (.thunk t .rejected payload) = .ok s' ∧
      s'.posts = s.posts ∧ s'.pagination = s.pagination ∧
      s'.count = s.count ∧ s'.total = s.total ∧
      s'.isLoading = false ∧ s'.isError = true ∧
      s'.errorMessage = (if truthy (optProp payload "message") then optProp payload "message"
        else .str (defaultMessage t)) ∧
      s'.errorCode = (if truthy (optProp payload "code") then optProp payload "code"
        else .str "UNKNOWN_ERROR") := by
  refine ⟨handleRejected s payload (defaultMessage t), ?_, rfl, rfl, rfl, rfl, rfl, rfl, rfl, rfl⟩
  cases t <;> rfl

end PostsSlice

namespace PostsSlice

theorem fetchPostByIdFulfilled_frame {s s' : PostsState} {p : JSValue}
    (h : fetchPostByIdFulfilled s p = .ok s') : s' = { s with posts := s'.posts } := by
  unfold fetchPostByIdFulfilled at h
  split at h
  · cases h; rfl
  · cases ha : asArray s.posts with
    | error e => simp [ha] at h
    | ok ps =>
      cases hf : findIndex (sameId p) ps with
      | error e => simp [ha, hf] at h
      | ok r =>
        cases r <;> simp only [ha, hf] at h <;> cases h <;> rfl

theorem replaceFulfilled_frame {s s' : PostsState} {p : JSValue}
    (h : replaceFulfilled s p = .ok s') : s' = { s with posts := s'.posts } := by
  unfold replaceFulfilled at h
  cases ha : asArray s.posts with
  | error e => simp [ha] at h
  | ok ps =>
    cases hf : findIndex (sameId p) ps with
    | error e => simp [ha, hf] at h
    | ok r =>
      cases r <;> simp only [ha, hf] at h <;> cases h <;> rfl

theorem addNewPostFulfilled_frame {s s' : PostsState} {p : JSValue}
    (h : addNewPostFulfilled s p = .ok s') :
    s' = { s with posts := s'.posts, isLoading := false, isSuccess := true } := by
  unfold addNewPostFulfilled at h
  cases hg : getProp p "post" with
  | error e => simp [hg] at h
  | ok v =>
    cases ha : asArray s.posts with
    | error e => simp [hg, ha] at h
    | ok ps => simp only [hg, ha] at h; cases h; rfl

theorem updatePostFulfilled_frame {s s' : PostsState} {p : JSValue}
    (h : updatePostFulfilled s p = .ok s') :
    s' = { s with posts := s'.posts, isLoading := false, isSuccess := true } := by
  unfold updatePostFulfilled at h
  cases hg : getProp p "post" with
  | error e => simp [hg] at h
  | ok v =>
    cases ha : asArray s.posts with
    | error e => simp [hg, ha] at h
    | ok ps =>
      cases hf : findIndex (sameId (jsOr v p)) ps with
      | error e => simp [hg, ha, hf] at h
      | ok r =>
        cases r <;> simp only [hg, ha, hf] at h <;> cases h <;> rfl

theorem deletePostFulfilled_frame {s s' : PostsState} {p : JSValue}
    (h : deletePostFulfilled s p = .ok s') :
    s' = { s with posts := s'.posts, isLoading := false, isSuccess := true } := by
  unfold deletePostFulfilled at h
  cases ha : asArray s.posts with
  | error e => simp [ha] at h
  | ok ps =>
    cases hf : filter (otherId p) ps with
    | error e => simp [ha, hf] at h
    | ok r => simp only [ha, hf] at h; cases h; rfl

theorem removePost_frame {s s' : PostsState} {p : JSValue}
    (h : removePost s p = .ok s') : s' = { s with posts := s'.posts } := by
  unfold removePost at h
  cases ha : asArray s.posts with
  | error e => simp [ha] at h
  | ok ps =>
    cases hf : filter (otherId p) ps with
    | error e => simp [ha, hf] at h
    | ok r => simp only [ha, hf] at h; cases h; rfl

end PostsSlice

namespace UserSlice

theorem fulfilled_flags {u u' : UserState} {t : Thunk} {payload : JSValue}
    (h : reducer u (.thunk t .fulfilled payload) = .ok u') :
    u'.isLoading = false ∧ u'.isSuccess = true ∧ u'.isError = u.isError := by
  cases t <;>
    simp only [reducer, loginUserFulfilled, registerUserFulfilled, fetchUserFulfilled,
      updateUserProfileFulfilled, logoutUserFulfilled] at h <;>
    repeat' split at h
  all_goals first | (cases h; exact ⟨rfl, rfl, rfl⟩) | (simp at h)

end UserSlice

/-- C3, as stated, fails in both containers. Posts: after a successful list
fetch (a reachable state) a rejected list fetch leaves `isSuccess` and `isError`
both true; `fetchPostById.fulfilled` on the initial state leaves both false; and
`upvotePost.fulfilled` after `fetchPosts.pending` leaves `isLoading` true. User:
after a successful logout a rejected login leaves both flags true. -/
theorem settlement_exactly_one_counterexample :
    (PostsSlice.Reachable (PostsSlice.fetchPostsFulfilled PostsSlice.initialState .undefined) ∧
      ∃ s', PostsSlice.reducer (PostsSlice.fetchPostsFulfilled PostsSlice.initialState .undefined)
          (.thunk .fetchPosts .rejected .undefined) = .ok s' ∧
        s'.isSuccess = true ∧ s'.isError = true) ∧
    (PostsSlice.Reachable PostsSlice.initialState ∧
      ∃ s', PostsSlice.reducer PostsSlice.initialState
          (.thunk .fetchPostById .fulfilled (.obj [("_id", .str "a")])) = .ok s' ∧
        s'.isSuccess = false ∧ s'.isError = false) ∧
    (PostsSlice.Reachable (PostsSlice.handlePending PostsSlice.initialState) ∧
      ∃ s', PostsSlice.reducer (PostsSlice.handlePending PostsSlice.initialState)
          (.thunk .upvotePost .fulfilled (.obj [("_id", .str "a")])) = .ok s' ∧
        s'.isLoading = true) ∧
    (UserSlice.Reachable (UserSlice.logoutUserFulfilled UserSlice.initialState) ∧
      ∃ u', UserSlice.reducer (UserSlice.logoutUserFulfilled UserSlice.initialState)
          (.thunk .loginUser .rejected .undefined) = .ok u' ∧
        u'.isSuccess = true ∧ u'.isError = true) := by
  refine ⟨⟨?_, _, rfl, rfl, rfl⟩, ⟨.init, _, rfl, rfl, rfl⟩, ⟨?_, _, rfl, rfl⟩,
    ⟨?_, _, rfl, rfl, rfl⟩⟩
  · exact .step (.thunk .fetchPosts .fulfilled .undefined) .init rfl
  · exact .step (.thunk .fetchPosts .pending .undefined) .init rfl
  · exact .step (.thunk .logoutUser .fulfilled .undefined) .init rfl

/-- C3, amended. In both containers every rejected signal returns a state with
`isLoading = false` and `isError = true` and leaves `isSuccess` as it was. A
fulfilled signal that returns a state: for fetchPosts, addNewPost, updatePost
and deletePost, and for each of the five user operations, sets
`isLoading = false` and `isSuccess = true` and leaves `isError` as it was; for
fetchPostsByCategory sets `isLoading = false` and leaves both other flags; for
fetchPostById, upvotePost, downvotePost and incrementPostView leaves all three
flags as they were. -/
theorem settlement_flags (s : PostsSlice.PostsState) (t : PostsSlice.Thunk)
    (u : UserSlice.UserState) (tu : UserSlice.Thunk) (payload : JSValue) :
    (∃ s', PostsSlice.reducer s (.thunk t .rejected payload) = .ok s' ∧
      s'.isLoading = false ∧ s'.isError = true ∧ s'.isSuccess = s.isSuccess) ∧
    (∀ s', PostsSlice.reducer s (.thunk t .fulfilled payload) = .ok s' →
      ((t = .fetchPosts ∨ t = .addNewPost ∨ t = .updatePost ∨ t = .deletePost) →
        s'.isLoading = false ∧ s'.isSuccess = true ∧ s'.isError = s.isError) ∧
      (t = .fetchPostsByCategory →
        s'.isLoading = false ∧ s'.isSuccess = s.isSuccess ∧ s'.isError = s.isError) ∧
      ((t = .fetchPostById ∨ t = .upvotePost ∨ t = .downvotePost ∨ t = .incrementPostView) →
        s'.isLoading = s.isLoading ∧ s'.isSuccess = s.isSuccess ∧ s'.isError = s.isError)) ∧
    (∃ u', UserSlice.reducer u (.thunk tu .rejected payload) = .ok u' ∧
      u'.isLoading = false ∧ u'.isError = true ∧ u'.isSuccess = u.isSuccess) ∧
    (∀ u', UserSlice.reducer u (.thunk tu .fulfilled payload) = .ok u' →
      u'.isLoading = false ∧ u'.isSuccess = true ∧ u'.isError = u.isError) := by
  refine ⟨⟨PostsSlice.handleRejected s payload (PostsSlice.defaultMessage t), ?_, rfl, rfl, rfl⟩,
    ?_, ⟨UserSlice.rejectedCase u payload (UserSlice.fallbackMessage tu), ?_, rfl, rfl, rfl⟩,
    fun u' h => UserSlice.fulfilled_flags h⟩
  · cases t <;> rfl
  · intro s' h
    cases t
    case fetchPosts =>
      cases h
      refine ⟨fun _ => ?_, by simp, by simp⟩
      unfold PostsSlice.fetchPostsFulfilled
      split <;> exact ⟨rfl, rfl, rfl⟩
    case fetchPostsByCategory =>
      cases h
      exact ⟨by simp, fun _ => ⟨rfl, rfl, rfl⟩, by simp⟩
    case fetchPostById =>
      have e := PostsSlice.fetchPostByIdFulfilled_frame h
      refine ⟨by simp, by simp, fun _ => ?_⟩
      rw [e]; exact ⟨rfl, rfl, rfl⟩
    case upvotePost =>
      have e := PostsSlice.replaceFulfilled_frame h
      refine ⟨by simp, by simp, fun _ => ?_⟩
      rw [e]; exact ⟨rfl, rfl, rfl⟩
    case downvotePost =>
      have e := PostsSlice.replaceFulfilled_frame h
      refine ⟨by simp, by simp, fun _ => ?_⟩
      rw [e]; exact ⟨rfl, rfl, rfl⟩
    case incrementPostView =>
      have e := PostsSlice.replaceFulfilled_frame h
      refine ⟨by simp, by simp, fun _ => ?_⟩
      rw [e]; exact ⟨rfl, rfl, rfl⟩
    case addNewPost =>
      have e := PostsSlice.addNewPostFulfilled_frame h
      refine ⟨fun _ => ?_, by simp, by simp⟩
      rw [e]; exact ⟨rfl, rfl, rfl⟩
    case updatePost =>
      have e := PostsSlice.updatePostFulfilled_frame h
      refine ⟨fun _ => ?_, by simp, by simp⟩
      rw [e]; exact ⟨rfl, rfl, rfl⟩
    case deletePost =>
      have e := PostsSlice.deletePostFulfilled_frame h
      refine ⟨fun _ => ?_, by simp, by simp⟩
      rw [e]; exact ⟨rfl, rfl, rfl⟩
  · cases tu <;> rfl

namespace PostsSlice

/-- C4, as stated, fails: `upvotePost.pending` has no registered case, so on
the initial state it returns the state as it is, with `isLoading` still false;
the same holds for fetchPostById, downvotePost and incrementPostView. -/
theorem pending_all_nine_counterexample :
    (∃ s', reducer initialState (.thunk .upvotePost .pending .undefined) = .ok s' ∧
      s'.isLoading = false) ∧
    (∃ s', reducer initialState (.thunk .fetchPostById .pending .undefined) = .ok s' ∧
      s'.isLoading = false) ∧
    (∃ s', reducer initialState (.thunk .downvotePost .pending .undefined) = .ok s' ∧
      s'.isLoading = false) ∧
    (∃ s', reducer initialState (.thunk .incrementPostView .pending .undefined) = .ok s' ∧
      s'.isLoading = false) :=
  ⟨⟨_, rfl, rfl⟩, ⟨_, rfl, rfl⟩, ⟨_, rfl, rfl⟩, ⟨_, rfl, rfl⟩⟩

/-- C4, amended. A pending signal always returns, and leaves posts, pagination,
count, total and `isSuccess` as they were. For fetchPosts, fetchPostsByCategory,
addNewPost, updatePost and deletePost it yields `isLoading = true`,
`isError = false`, `errorMessage = ""` and `errorCode = null`. For fetchPostById,
upvotePost, downvotePost and incrementPostView, which register no pending case,
it returns the prior state unchanged. -/
theorem pending_sets_loading (s : PostsState) (t : Thunk) (payload : JSValue) :
    ∃ s', reducer s (.thunk t .pending payload) = .ok s' ∧
      s'.posts = s.posts ∧ s'.pagination = s.pagination ∧
      s'.count = s.count ∧ s'.total = s.total ∧ s'.isSuccess = s.isSuccess ∧
      ((t = .fetchPosts ∨ t = .fetchPostsByCategory ∨ t = .addNewPost ∨ t = .updatePost ∨
          t = .deletePost) →
        s'.isLoading = true ∧ s'.isError = false ∧
        s'.errorMessage = .str "" ∧ s'.errorCode = .null) ∧
      ((t = .fetchPostById ∨ t = .upvotePost ∨ t = .downvotePost ∨ t = .incrementPostView) →
        s' = s) := by
  cases t
  case fetchPosts => exact ⟨handlePending s, rfl, rfl, rfl, rfl, rfl, rfl, fun _ => ⟨rfl, rfl, rfl, rfl⟩, by simp⟩
  case fetchPostsByCategory => exact ⟨handlePending s, rfl, rfl, rfl, rfl, rfl, rfl, fun _ => ⟨rfl, rfl, rfl, rfl⟩, by simp⟩
  case addNewPost => exact ⟨handlePending s, rfl, rfl, rfl, rfl, rfl, rfl, fun _ => ⟨rfl, rfl, rfl, rfl⟩, by simp⟩
  case updatePost => exact ⟨handlePending s, rfl, rfl, rfl, rfl, rfl, rfl, fun _ => ⟨rfl, rfl, rfl, rfl⟩, by simp⟩
  case deletePost => exact ⟨handlePending s, rfl, rfl, rfl, rfl, rfl, rfl, fun _ => ⟨rfl, rfl, rfl, rfl⟩, by simp⟩
  case fetchPostById => exact ⟨s, rfl, rfl, rfl, rfl, rfl, rfl, by simp, fun _ => rfl⟩
  case upvotePost => exact ⟨s, rfl, rfl, rfl, rfl, rfl, rfl, by simp, fun _ => rfl⟩
  case downvotePost => exact ⟨s, rfl, rfl, rfl, rfl, rfl, rfl, by simp, fun _ => rfl⟩
  case incrementPostView => exact ⟨s, rfl, rfl, rfl, rfl, rfl, rfl, by simp, fun _ => rfl⟩

end PostsSlice

/-- A callback that never throws on the elements makes `findIndex` return. -/
theorem findIndex_total {cb : JSValue → Except JSError Bool} {ps : List JSValue}
    (h : ∀ q ∈ ps, ∃ b, cb q = .ok b) : ∃ r, findIndex cb ps = .ok r := by
  induction ps with
  | nil => exact ⟨none, rfl⟩
  | cons x rest ih =>
    obtain ⟨b, hb⟩ := h x (List.mem_cons_self x rest)
    obtain ⟨r, hr⟩ := ih (fun q hq => h q (List.mem_cons_of_mem x hq))
    cases b with
    | true => exact ⟨some 0, by simp [findIndex, hb]⟩
    | false =>
      cases r with
      | none => exact ⟨none, by simp [findIndex, hb, hr]⟩
      | some k => exact ⟨some (k + 1), by simp [findIndex, hb, hr]⟩

/-- On an array of present elements and a present target, the index search
returns, and its result is described by `idMatches`. -/
theorem findIndex_sameId {target : JSValue} {ps : List JSValue}
    (ht : isNullish target = false) (hps : AllPresent ps) :
    (∃ i, findIndex (sameId target) ps = .ok (some i) ∧ IsFirstMatch target ps i) ∨
    (findIndex (sameId target) ps = .ok none ∧ ∀ q ∈ ps, idMatches target q = false) := by
  obtain ⟨r, hr⟩ := @findIndex_total (sameId target) ps
    (fun q hq => ⟨_, sameId_of_present ht (hps q hq)⟩)
  cases r with
  | none =>
    right
    refine ⟨hr, fun q hq => ?_⟩
    have h1 := findIndex_none_spec hr q hq
    rw [sameId_of_present ht (hps q hq)] at h1
    exact Except.ok.inj h1
  | some i =>
    left
    obtain ⟨hi, hat, hbefore⟩ := findIndex_some_spec hr
    refine ⟨i, hr, hi, ?_, ?_⟩
    · rw [sameId_of_present ht (hps _ (List.get_mem ps i hi))] at hat
      exact Except.ok.inj hat
    · intro j hj hji
      have h1 := hbefore j hj hji
      rw [sameId_of_present ht (hps _ (List.get_mem ps j hj))] at h1
      exact Except.ok.inj h1

theorem findIndex_of_firstMatch {target : JSValue} {ps : List JSValue} {i : Nat}
    (ht : isNullish target = false) (hps : AllPresent ps) (h : IsFirstMatch target ps i) :
    findIndex (sameId target) ps = .ok (some i) := by
  obtain ⟨hi, hat, hbefore⟩ := h
  apply findIndex_first hi
  · rw [sameId_of_present ht (hps _ (List.get_mem ps i hi)), hat]
  · intro j hj hji
    rw [sameId_of_present ht (hps _ (List.get_mem ps j hj)), hbefore j hj hji]

theorem findIndex_of_noMatch {target : JSValue} {ps : List JSValue}
    (ht : isNullish target = false) (hps : AllPresent ps)
    (h : ∀ q ∈ ps, idMatches target q = false) :
    findIndex (sameId target) ps = .ok none := by
  apply findIndex_none
  intro q hq
  rw [sameId_of_present ht (hps q hq), h q hq]

namespace PostsSlice

/-- C5. On a post list whose elements are all present, `fetchPostById.fulfilled`
always returns. An absent (falsy) payload leaves the whole state unchanged.
Otherwise, when index `i` holds the first post with the payload's `_id`, the
payload replaces it at `i`: the length and every other index are unchanged; when
no post has the payload's `_id`, the payload is appended last and the length
grows by one. In every case isLoading, isSuccess, isError, errorMessage,
errorCode, pagination, count and total are unchanged. -/
theorem fetchPostById_upserts (s : PostsState) (ps : List JSValue) (p : JSValue)
    (hposts : s.posts = .arr ps) (hps : AllPresent ps) :
    (truthy p = false → reducer s (.thunk .fetchPostById .fulfilled p) = .ok s) ∧
    (truthy p = true → ∀ i, IsFirstMatch p ps i →
      reducer s (.thunk .fetchPostById .fulfilled p) = .ok { s with posts := .arr (ps.set i p) } ∧
      (ps.set i p).length = ps.length ∧ (ps.set i p)[i]? = some p ∧
      ∀ j, j ≠ i → (ps.set i p)[j]? = ps[j]?) ∧
    (truthy p = true → (∀ q ∈ ps, idMatches p q = false) →
      reducer s (.thunk .fetchPostById .fulfilled p) = .ok { s with posts := .arr (ps ++ [p]) } ∧
      (ps ++ [p]).length = ps.length + 1 ∧ (ps ++ [p])[ps.length]? = some p ∧
      ∀ j, j < ps.length → (ps ++ [p])[j]? = ps[j]?) ∧
    (∃ s', reducer s (.thunk .fetchPostById .fulfilled p) = .ok s' ∧
      s'.isLoading = s.isLoading ∧ s'.isSuccess = s.isSuccess ∧ s'.isError = s.isError ∧
      s'.errorMessage = s.errorMessage ∧ s'.errorCode = s.errorCode ∧
      s'.pagination = s.pagination ∧ s'.count = s.count ∧ s'.total = s.total) := by
  have hsome : ∀ i, truthy p = true → IsFirstMatch p ps i →
      reducer s (.thunk .fetchPostById .fulfilled p) =
        .ok { s with posts := .arr (ps.set i p) } := by
    intro i hp hi
    have hf := findIndex_of_firstMatch (isNullish_of_truthy hp) hps hi
    simp [reducer, fetchPostByIdFulfilled, hp, hposts, asArray, hf]
  have hnone : truthy p = true → (∀ q ∈ ps, idMatches p q = false) →
      reducer s (.thunk .fetchPostById .fulfilled p) =
        .ok { s with posts := .arr (ps ++ [p]) } := by
    intro hp hno
    have hf := findIndex_of_noMatch (isNullish_of_truthy hp) hps hno
    simp [reducer, fetchPostByIdFulfilled, hp, hposts, asArray, hf]
  have habsent : truthy p = false → reducer s (.thunk .fetchPostById .fulfilled p) = .ok s := by
    intro hp
    simp [reducer, fetchPostByIdFulfilled, hp]
  refine ⟨habsent, ?_, ?_, ?_⟩
  · intro hp i hi
    have hlt : i < ps.length := hi.1
    refine ⟨hsome i hp hi, by simp, by simp [hlt], ?_⟩
    intro j hj
    simp [List.getElem?_set, Ne.symm hj]
  · intro hp hno
    refine ⟨hnone hp hno, by simp, by simp, ?_⟩
    intro j hj
    simp [List.getElem?_append_left hj]
  · cases hp : truthy p with
    | false => exact ⟨s, habsent hp, rfl, rfl, rfl, rfl, rfl, rfl, rfl, rfl⟩
    | true =>
      rcases findIndex_sameId (isNullish_of_truthy hp) hps with ⟨i, -, hi⟩ | ⟨-, hno⟩
      · exact ⟨_, hsome i hp hi, rfl, rfl, rfl, rfl, rfl, rfl, rfl, rfl⟩
      · exact ⟨_, hnone hp hno, rfl, rfl, rfl, rfl, rfl, rfl, rfl, rfl⟩

end PostsSlice

theorem allPresent_pair : AllPresent [PostsSlice.postB, PostsSlice.postA] := by
  intro q hq
  simp at hq
  rcases hq with rfl | rfl <;> rfl

theorem isFirstMatch_postA (target : JSValue)
    (h : idMatches target PostsSlice.postA = true) (hb : idMatches target PostsSlice.postB = false) :
    IsFirstMatch target [PostsSlice.postB, PostsSlice.postA] 1 := by
  refine ⟨by decide, h, ?_⟩
  intro j hj hji
  have : j = 0 := by omega
  subst this
  exact hb

namespace PostsSlice

theorem fetchPostByIdFulfilled_total {s : PostsState} {ps : List JSValue} {p : JSValue}
    (hposts : s.posts = .arr ps) (hps : AllPresent ps) :
    ∃ s', reducer s (.thunk .fetchPostById .fulfilled p) = .ok s' := by
  cases hp : truthy p with
  | false => exact ⟨s, by simp [reducer, fetchPostByIdFulfilled, hp]⟩
  | true =>
    rcases findIndex_sameId (isNullish_of_truthy hp) hps with ⟨i, hf, -⟩ | ⟨hf, -⟩
    · exact ⟨_, by simp [reducer, fetchPostByIdFulfilled, hp, hposts, asArray, hf]; rfl⟩
    · exact ⟨_, by simp [reducer, fetchPostByIdFulfilled, hp, hposts, asArray, hf]; rfl⟩

/-- C5 at a concrete input: in the list `[b, a]` the fetched post `a` replaces
the post at index 1. -/
theorem fetchPostById_upserts_witness :
    reducer (stateWith [postB, postA]) (.thunk .fetchPostById .fulfilled postA2) =
      .ok (stateWith [postB, postA2]) :=
  ((fetchPostById_upserts (stateWith [postB, postA]) [postB, postA] postA2 rfl
    allPresent_pair).2.1 rfl 1 (isFirstMatch_postA postA2 rfl rfl)).1

/-- C6, amended. Upsert-by-identity is idempotent, with no assumption that the
ids in the list are unique: for a fetched post whose `_id` is a primitive value
(string, number, boolean, `null` or missing), whenever `fetchPostById.fulfilled`
returns a state, applying it again to that state returns the very same state;
and it does return a state on every post list whose elements are all present. -/
theorem fetchPostById_idempotent (s : PostsState) (p : JSValue)
    (hid : isPrimitive (field p "_id") = true) :
    (∀ s1, reducer s (.thunk .fetchPostById .fulfilled p) = .ok s1 →
      reducer s1 (.thunk .fetchPostById .fulfilled p) = .ok s1) ∧
    (∀ ps, s.posts = .arr ps → AllPresent ps →
      ∃ s1, reducer s (.thunk .fetchPostById .fulfilled p) = .ok s1) := by
  constructor
  · intro s1 h
    simp only [reducer] at h ⊢
    cases hp : truthy p with
    | false =>
      simp [fetchPostByIdFulfilled, hp] at h
      subst h
      simp [fetchPostByIdFulfilled, hp]
    | true =>
      have hpn : isNullish p = false := isNullish_of_truthy hp
      have hself : sameId p p = .ok true := by
        rw [sameId_of_present hpn hpn]
        simp [idMatches, strictEq_self hid]
      cases ha : asArray s.posts with
      | error e => simp [fetchPostByIdFulfilled, hp, ha] at h
      | ok ps =>
        cases hf : findIndex (sameId p) ps with
        | error e => simp [fetchPostByIdFulfilled, hp, ha, hf] at h
        | ok r =>
          cases r with
          | some i =>
            simp [fetchPostByIdFulfilled, hp, ha, hf] at h
            subst h
            obtain ⟨hi, hat, hbefore⟩ := findIndex_some_spec hf
            have hf2 : findIndex (sameId p) (ps.set i p) = .ok (some i) := by
              apply findIndex_first (i := i) (by simpa using hi)
              · simpa using hself
              · intro j hj hji
                have hj2 : j < ps.length := by simpa using hj
                have hne : i ≠ j := by omega
                have := hbefore j hj2 hji
                simpa [List.getElem_set_ne hne] using this
            simp [fetchPostByIdFulfilled, hp, asArray, hf2]
          | none =>
            simp [fetchPostByIdFulfilled, hp, ha, hf] at h
            subst h
            have hno := findIndex_none_spec hf
            have hf2 : findIndex (sameId p) (ps ++ [p]) = .ok (some ps.length) := by
              apply findIndex_first (i := ps.length) (by simp)
              · simpa using hself
              · intro j hj hji
                have := hno (ps.get ⟨j, hji⟩) (List.get_mem ps j hji)
                simpa [List.getElem_append_left hji] using this
            simp [fetchPostByIdFulfilled, hp, asArray, hf2]
  · intro ps hposts hps
    exact fetchPostByIdFulfilled_total hposts hps

/-- C6 at a concrete input: fetching post `a` into `[b, a]` twice gives the
state that fetching it once gives. -/
theorem fetchPostById_idempotent_witness :
    isPrimitive (field postA2 "_id") = true ∧
    reducer (stateWith [postB, postA]) (.thunk .fetchPostById .fulfilled postA2) =
      .ok (stateWith [postB, postA2]) ∧
    reducer (stateWith [postB, postA2]) (.thunk .fetchPostById .fulfilled postA2) =
      .ok (stateWith [postB, postA2]) :=
  ⟨rfl, rfl, (fetchPostById_idempotent (stateWith [postB, postA]) postA2 rfl).1 _ rfl⟩

end PostsSlice

theorem isFirstMatch_unique {u : JSValue} {ps : List JSValue} {i k : Nat}
    (hi : IsFirstMatch u ps i) (hk : IsFirstMatch u ps k) : i = k := by
  obtain ⟨hil, hia, hib⟩ := hi
  obtain ⟨hkl, hka, hkb⟩ := hk
  rcases Nat.lt_trichotomy i k with h | h | h
  · have := hkb i hil h
    rw [hia] at this
    exact absurd this (by simp)
  · exact h
  · have := hib k hkl h
    rw [hka] at this
    exact absurd this (by simp)

theorem not_firstMatch_of_noMatch {u : JSValue} {ps : List JSValue} {i : Nat}
    (hno : ∀ q ∈ ps, idMatches u q = false) (hi : IsFirstMatch u ps i) : False := by
  obtain ⟨hil, hia, -⟩ := hi
  have := hno _ (List.get_mem ps i hil)
  rw [hia] at this
  exact absurd this (by simp)

theorem replacedAt_set {u : JSValue} {ps : List JSValue} {i : Nat}
    (hi : IsFirstMatch u ps i) : ReplacedAt u ps (ps.set i u) := by
  refine ⟨by simp, ?_, ?_⟩
  · intro k hk
    have hik : i = k := isFirstMatch_unique hi hk
    subst hik
    refine ⟨by simp [hi.1], ?_⟩
    intro j hj
    simp [List.getElem?_set, Ne.symm hj]
  · intro hno
    exact (not_firstMatch_of_noMatch hno hi).elim

theorem replacedAt_self {u : JSValue} {ps : List JSValue}
    (hno : ∀ q ∈ ps, idMatches u q = false) : ReplacedAt u ps ps := by
  refine ⟨rfl, ?_, fun _ => rfl⟩
  intro i hi
  exact (not_firstMatch_of_noMatch hno hi).elim

namespace PostsSlice

theorem eq_with_posts {s : PostsState} {ps : List JSValue} (hposts : s.posts = .arr ps) :
    { s with posts := .arr ps } = s := by
  cases s
  simp only at hposts
  subst hposts
  rfl

/-- The shared body of the vote and view cases on a list of present posts. -/
theorem replaceFulfilled_spec {s : PostsState} {ps : List JSValue} {u : JSValue}
    (hposts : s.posts = .arr ps) (hps : AllPresent ps) (hu : isNullish u = false) :
    ∃ ps', replaceFulfilled s u = .ok { s with posts := .arr ps' } ∧ ReplacedAt u ps ps' := by
  rcases findIndex_sameId hu hps with ⟨i, hf, hi⟩ | ⟨hf, hno⟩
  · exact ⟨ps.set i u, by simp [replaceFulfilled, hposts, asArray, hf], replacedAt_set hi⟩
  · refine ⟨ps, ?_, replacedAt_self hno⟩
    rw [eq_with_posts hposts]
    simp [replaceFulfilled, hposts, asArray, hf]

/-- The case `updatePost.fulfilled` on a list of present posts. -/
theorem updatePostFulfilled_spec {s : PostsState} {ps : List JSValue} {payload : JSValue}
    (hposts : s.posts = .arr ps) (hps : AllPresent ps) (hp : isNullish payload = false) :
    ∃ ps', updatePostFulfilled s payload =
        .ok { s with posts := .arr ps', isLoading := false, isSuccess := true } ∧
      ReplacedAt (jsOr (field payload "post") payload) ps ps' := by
  have hu : isNullish (jsOr (field payload "post") payload) = false := by
    unfold jsOr
    split
    · exact isNullish_of_truthy (by assumption)
    · exact hp
  rcases findIndex_sameId hu hps with ⟨i, hf, hi⟩ | ⟨hf, hno⟩
  · exact ⟨_, by simp [updatePostFulfilled, getProp, hp, hposts, asArray, hf], replacedAt_set hi⟩
  · refine ⟨ps, ?_, replacedAt_self hno⟩
    simp [updatePostFulfilled, getProp, hp, hposts, asArray, hf]

/-- C7, as stated, fails for updatePost: on the initial state, whose list is
empty so that no post has the payload's `_id`, `updatePost.fulfilled` returns a
state with `isSuccess = true`, which the prior state does not have. -/
theorem updatePost_absent_target_counterexample :
    initialState.posts = .arr [] ∧ initialState.isSuccess = false ∧
    ∃ s', reducer initialState (.thunk .updatePost .fulfilled postA) = .ok s' ∧
      s'.isSuccess = true :=
  ⟨rfl, rfl, _, rfl, rfl⟩

/-- C7, amended. On a list of present posts and with a present payload: when
no post has the payload's `_id`, the fulfilled signals of upvotePost,
downvotePost and incrementPostView return the prior state unchanged; when no
post has the `_id` of the updated post (`payload.post` when present, else the
payload), `updatePost.fulfilled` returns the prior state with `isLoading = false`
and `isSuccess = true` recorded and everything else, the list and its length
included, unchanged. -/
theorem absent_target_is_noop (s : PostsState) (ps : List JSValue) (payload : JSValue)
    (hposts : s.posts = .arr ps) (hps : AllPresent ps) (hp : isNullish payload = false) :
    ((∀ q ∈ ps, idMatches payload q = false) →
      reducer s (.thunk .upvotePost .fulfilled payload) = .ok s ∧
      reducer s (.thunk .downvotePost .fulfilled payload) = .ok s ∧
      reducer s (.thunk .incrementPostView .fulfilled payload) = .ok s) ∧
    ((∀ q ∈ ps, idMatches (jsOr (field payload "post") payload) q = false) →
      reducer s (.thunk .updatePost .fulfilled payload) =
        .ok { s with isLoading := false, isSuccess := true } ∧
      ({ s with isLoading := false, isSuccess := true } : PostsState).posts = .arr ps) := by
  constructor
  · intro hno
    have hf := findIndex_of_noMatch hp hps hno
    have h : replaceFulfilled s payload = .ok s := by
      simp [replaceFulfilled, hposts, asArray, hf]
    exact ⟨h, h, h⟩
  · intro hno
    have hu : isNullish (jsOr (field payload "post") payload) = false := by
      unfold jsOr
      split
      · exact isNullish_of_truthy (by assumption)
      · exact hp
    have hf := findIndex_of_noMatch hu hps hno
    refine ⟨?_, hposts⟩
    simp [reducer, updatePostFulfilled, getProp, hp, hposts, asArray, hf]

theorem allPresent_postB : AllPresent [postB] := by
  intro q hq
  simp at hq
  subst hq
  rfl

theorem postB_not_postA : ∀ q ∈ [postB], idMatches postA q = false := by
  intro q hq
  simp at hq
  subst hq
  rfl

/-- C7 at a concrete input: upvoting the absent post `a` in the list `[b]`
returns the prior state. -/
theorem absent_target_is_noop_witness :
    reducer (stateWith [postB]) (.thunk .upvotePost .fulfilled postA) = .ok (stateWith [postB]) :=
  ((absent_target_is_noop (stateWith [postB]) [postB] postA rfl allPresent_postB rfl).1
    postB_not_postA).1

theorem keepsPost_filter_of_distinct {id : JSValue} {ps : List JSValue}
    (hd : DistinctIds ps) (hex : ∃ q ∈ ps, strictEq (field q "_id") id = true) :
    (ps.filter (keepsPost id)).length + 1 = ps.length := by
  induction ps with
  | nil => simp at hex
  | cons x rest ih =>
    have hd' := List.pairwise_cons.mp hd
    cases hx : strictEq (field x "_id") id with
    | true =>
      have hxe : field x "_id" = id := eq_of_strictEq hx
      have hrest : ∀ q ∈ rest, keepsPost id q = true := by
        intro q hq
        have h1 := hd'.1 q hq
        rw [hxe] at h1
        cases hq2 : strictEq (field q "_id") id with
        | false => simp [keepsPost, hq2]
        | true =>
          have hqe : field q "_id" = id := eq_of_strictEq hq2
          rw [hqe] at h1
          rw [hxe] at hx
          rw [hx] at h1
          exact absurd h1 (by simp)
      have hfr : rest.filter (keepsPost id) = rest := List.filter_eq_self.mpr hrest
      simp [List.filter, keepsPost, hx]
      simpa [keepsPost] using congrArg List.length hfr
    | false =>
      obtain ⟨q, hq, hqm⟩ := hex
      rcases List.mem_cons.mp hq with rfl | hq
      · rw [hx] at hqm
        exact absurd hqm (by simp)
      · have := ih hd'.2 ⟨q, hq, hqm⟩
        simp [List.filter, keepsPost, hx]
        simpa [keepsPost] using this

theorem reachable_twoCopies : Reachable twoCopies :=
  .step (.thunk .addNewPost .fulfilled postA)
    (.step (.thunk .addNewPost .fulfilled postA) .init rfl) rfl

/-- C8, as stated, fails: delivering the new post `a` twice leads to a list
holding two entities with id `a`, and both `deletePost.fulfilled` and
`removePost` with that id then remove the two of them, so the length decreases
by two. -/
theorem delete_exactly_one_counterexample :
    Reachable twoCopies ∧ twoCopies.posts = .arr [postA, postA] ∧
    (∃ s', reducer twoCopies (.thunk .deletePost .fulfilled (.str "a")) = .ok s' ∧
      s'.posts = .arr []) ∧
    (∃ s', reducer twoCopies (.removePost (.str "a")) = .ok s' ∧ s'.posts = .arr []) :=
  ⟨reachable_twoCopies, rfl, ⟨_, rfl, rfl⟩, ⟨_, rfl, rfl⟩⟩

/-- C8, amended. On a list of present posts, `deletePost.fulfilled` with
payload `id` and `removePost(id)` both return, and the resulting list is the
prior list without every entity whose `_id` equals `id`: the remaining posts
keep their relative order; when no entity has that id the list is unchanged;
when the ids in the list are pairwise distinct and an entity with that id is
present, the length decreases by exactly one. `deletePost.fulfilled` also
records `isLoading = false` and `isSuccess = true`. -/
theorem delete_removes_by_identity (s : PostsState) (ps : List JSValue) (id : JSValue)
    (hposts : s.posts = .arr ps) (hps : AllPresent ps) :
    reducer s (.thunk .deletePost .fulfilled id) =
      .ok { s with isLoading := false, isSuccess := true,
                   posts := .arr (ps.filter (keepsPost id)) } ∧
    reducer s (.removePost id) = .ok { s with posts := .arr (ps.filter (keepsPost id)) } ∧
    (ps.filter (keepsPost id)).Sublist ps ∧
    (∀ q, q ∈ ps.filter (keepsPost id) ↔ q ∈ ps ∧ strictEq (field q "_id") id = false) ∧
    ((∀ q ∈ ps, strictEq (field q "_id") id = false) → ps.filter (keepsPost id) = ps) ∧
    (DistinctIds ps → (∃ q ∈ ps, strictEq (field q "_id") id = true) →
      (ps.filter (keepsPost id)).length + 1 = ps.length) := by
  have hf : filter (otherId id) ps = .ok (ps.filter (keepsPost id)) :=
    filter_pure (fun q hq => otherId_of_present (hps q hq))
  refine ⟨?_, ?_, List.filter_sublist ps, ?_, ?_, keepsPost_filter_of_distinct⟩
  · simp [reducer, deletePostFulfilled, hposts, asArray, hf]
  · simp [reducer, removePost, hposts, asArray, hf]
  · intro q
    simp [List.mem_filter, keepsPost]
  · intro hno
    apply List.filter_eq_self.mpr
    intro q hq
    simp [keepsPost, hno q hq]

/-- C8 at a concrete input: deleting `a` from `[b, a]` leaves `[b]`. -/
theorem delete_removes_by_identity_witness :
    reducer (stateWith [postB, postA]) (.removePost (.str "a")) = .ok (stateWith [postB]) :=
  (delete_removes_by_identity (stateWith [postB, postA]) [postB, postA] (.str "a") rfl
    allPresent_pair).2.1

end PostsSlice

namespace PostsSlice

/-- C9. On a list of present posts and with a present payload, the fulfilled
signals of upvotePost, downvotePost and incrementPostView (updated post `u` = the
payload) and of updatePost (`u` = `payload.post` when present, else the payload)
all return, and the resulting list has the length of the prior list, holds `u`
at the index of the first prior post whose `_id` equals the `_id` of `u`, and
equals the prior list at every other index (and everywhere when there is no such
post). The vote and view signals change nothing else; updatePost also records
`isLoading = false` and `isSuccess = true`. -/
theorem replace_in_place (s : PostsState) (ps : List JSValue) (payload : JSValue)
    (hposts : s.posts = .arr ps) (hps : AllPresent ps) (hp : isNullish payload = false) :
    (∃ ps', reducer s (.thunk .upvotePost .fulfilled payload) = .ok { s with posts := .arr ps' } ∧
      ReplacedAt payload ps ps') ∧
    (∃ ps', reducer s (.thunk .downvotePost .fulfilled payload) =
        .ok { s with posts := .arr ps' } ∧
      ReplacedAt payload ps ps') ∧
    (∃ ps', reducer s (.thunk .incrementPostView .fulfilled payload) =
        .ok { s with posts := .arr ps' } ∧
      ReplacedAt payload ps ps') ∧
    (∃ ps', reducer s (.thunk .updatePost .fulfilled payload) =
        .ok { s with posts := .arr ps', isLoading := false, isSuccess := true } ∧
      ReplacedAt (if truthy (field payload "post") then field payload "post" else payload)
        ps ps') :=
  ⟨replaceFulfilled_spec hposts hps hp, replaceFulfilled_spec hposts hps hp,
    replaceFulfilled_spec hposts hps hp, updatePostFulfilled_spec hposts hps hp⟩

/-- C9 at a concrete input: upvoting post `a` in `[b, a]` puts the returned
post at index 1 and leaves index 0 alone. -/
theorem replace_in_place_witness :
    ∃ ps', reducer (stateWith [postB, postA]) (.thunk .upvotePost .fulfilled postA2) =
        .ok (stateWith ps') ∧
      ps'.length = 2 ∧ ps'[1]? = some postA2 ∧ ps'[0]? = some postB := by
  obtain ⟨ps', h, hlen, hat, -⟩ :=
    (replace_in_place (stateWith [postB, postA]) [postB, postA] postA2 rfl
      allPresent_pair rfl).1
  have h1 := hat 1 (isFirstMatch_postA postA2 rfl rfl)
  exact ⟨ps', h, hlen, h1.1, by simpa using h1.2 0 (by decide)⟩

/-- The case `addNewPost.fulfilled` on a post list and a present payload `p`: it
returns; with `n = p.post` when that field is present (truthy) and `n = p`
otherwise, the resulting list is `n` followed by the prior posts in their prior
order: `n` is at index 0, every prior post moves up by one index, and the length
grows by exactly one; `isLoading = false` and `isSuccess = true` are recorded
and nothing else changes. -/
theorem addNewPost_prepends (s : PostsState) (ps : List JSValue) (p : JSValue)
    (hposts : s.posts = .arr ps) (hp : isNullish p = false) :
    ∃ n ps', n = (if truthy (field p "post") then field p "post" else p) ∧
      reducer s (.thunk .addNewPost .fulfilled p) =
        .ok { s with posts := .arr ps', isLoading := false, isSuccess := true } ∧
      ps' = n :: ps ∧ ps'[0]? = some n ∧ ps'.length = ps.length + 1 ∧
      ∀ j, ps'[j + 1]? = ps[j]? := by
  refine ⟨_, _, rfl, ?_, rfl, by simp, by simp, by simp⟩
  simp [reducer, addNewPostFulfilled, getProp, hp, hposts, asArray, jsOr]

/-- Adding `{post: a}` to `[b]` gives `[a, b]`. -/
theorem addNewPost_prepends_witness :
    ∃ n ps', n = postA ∧
      reducer (stateWith [postB]) (.thunk .addNewPost .fulfilled (.obj [("post", postA)])) =
        .ok { stateWith [postB] with posts := .arr ps', isLoading := false, isSuccess := true } ∧
      ps' = n :: [postB] ∧ ps'[0]? = some n ∧ ps'.length = 2 ∧
      ∀ j, ps'[j + 1]? = [postB][j]? :=
  addNewPost_prepends (stateWith [postB]) [postB] (.obj [("post", postA)]) rfl rfl

end PostsSlice

namespace PostsSlice

/-- C11: the code at a failing input. A 2xx response without `data` makes the
thunk `fetchPostsByCategory` fulfil with an absent payload, and
`fetchPostsByCategory.fulfilled` then stores `undefined` as the posts, which is
not a list of posts; the next list operation, here `removePost`, throws. The
sibling `fetchPosts.fulfilled` stores the empty list for an absent payload. -/
theorem category_absent_payload_stores_undefined :
    fetchPostsByCategory "" (.ok (.obj [("success", .bool true)])) = .fulfilled .undefined ∧
    (∃ s', reducer initialState (.thunk .fetchPostsByCategory .fulfilled .undefined) = .ok s' ∧
      s'.posts = .undefined ∧ (∀ ps, s'.posts ≠ .arr ps) ∧
      reducer s' (.removePost (.str "a")) = .error .typeError) ∧
    (∃ s', reducer initialState (.thunk .fetchPosts .fulfilled .undefined) = .ok s' ∧
      s'.posts = .arr []) := by
  refine ⟨rfl, ⟨_, rfl, rfl, ?_, rfl⟩, ⟨_, rfl, rfl⟩⟩
  intro ps h
  simp [fetchPostsByCategoryFulfilled] at h

/-- The case `fetchPostsByCategory.fulfilled` always returns; the resulting
posts are the payload as it is, whatever the prior list was, so they are a list
of posts when the payload is one; pagination, count and total are unchanged and
`isLoading = false`. -/
theorem category_replaces_list (s : PostsState) (payload : JSValue) :
    ∃ s', reducer s (.thunk .fetchPostsByCategory .fulfilled payload) = .ok s' ∧
      s'.posts = payload ∧
      (∀ t : PostsState, ∃ t', reducer t (.thunk .fetchPostsByCategory .fulfilled payload) = .ok t' ∧
        t'.posts = s'.posts) ∧
      (∀ ps, payload = .arr ps → s'.posts = .arr ps) ∧
      s'.pagination = s.pagination ∧ s'.count = s.count ∧ s'.total = s.total ∧
      s'.isLoading = false :=
  ⟨fetchPostsByCategoryFulfilled s payload, rfl, rfl, fun _ => ⟨_, rfl, rfl⟩,
    fun _ h => h, rfl, rfl, rfl, rfl⟩

end PostsSlice

/-- C12. `clearState` resets only the transient flags in both slices. Posts:
it returns with `isLoading`, `isSuccess`, `isError` false, `errorMessage = ""`
and `errorCode = null`, the initial values, and leaves posts, pagination, count
and total unchanged. User: it returns with `isLoading`, `isSuccess`, `isError`
false and `errorMessage = ""`, and leaves userInfo, isLoggedIn and isAdmin
unchanged. -/
theorem clearState_resets_transient_flags (s : PostsSlice.PostsState) (u : UserSlice.UserState) :
    (∃ s', PostsSlice.reducer s .clearState = .ok s' ∧
      s'.isLoading = false ∧ s'.isSuccess = false ∧ s'.isError = false ∧
      s'.errorMessage = .str "" ∧ s'.errorCode = .null ∧
      s'.isLoading = PostsSlice.initialState.isLoading ∧
      s'.isSuccess = PostsSlice.initialState.isSuccess ∧
      s'.isError = PostsSlice.initialState.isError ∧
      s'.errorMessage = PostsSlice.initialState.errorMessage ∧
      s'.errorCode = PostsSlice.initialState.errorCode ∧
      s'.posts = s.posts ∧ s'.pagination = s.pagination ∧
      s'.count = s.count ∧ s'.total = s.total) ∧
    (∃ u', UserSlice.reducer u .clearState = .ok u' ∧
      u'.isLoading = false ∧ u'.isSuccess = false ∧ u'.isError = false ∧
      u'.errorMessage = .str "" ∧
      u'.userInfo = u.userInfo ∧ u'.isLoggedIn = u.isLoggedIn ∧ u'.isAdmin = u.isAdmin) :=
  ⟨⟨PostsSlice.clearState s, rfl, rfl, rfl, rfl, rfl, rfl, rfl, rfl, rfl, rfl, rfl, rfl, rfl,
      rfl, rfl⟩,
    ⟨UserSlice.clearState u, rfl, rfl, rfl, rfl, rfl, rfl, rfl, rfl⟩⟩

namespace UserSlice

/-- C13. Full session wipe. Both `clearUserState` and `logoutUser.fulfilled`
(with any payload) return a state with `userInfo = null`, `isLoggedIn = false`
and `isAdmin = false`. The result of `clearUserState` is the slice's initial
state; `logoutUser.fulfilled` records `isLoading = false` and
`isSuccess = true` and leaves `isError` and `errorMessage` as they were. -/
theorem session_wipe (u : UserState) (payload : JSValue) :
    (∃ u', reducer u .clearUserState = .ok u' ∧
      u'.userInfo = .null ∧ u'.isLoggedIn = false ∧ u'.isAdmin = false ∧
      u' = initialState) ∧
    (∃ u', reducer u (.thunk .logoutUser .fulfilled payload) = .ok u' ∧
      u'.userInfo = .null ∧ u'.isLoggedIn = false ∧ u'.isAdmin = false ∧
      u'.isLoading = false ∧ u'.isSuccess = true ∧
      u'.isError = u.isError ∧ u'.errorMessage = u.errorMessage) :=
  ⟨⟨clearUserState u, rfl, rfl, rfl, rfl, rfl⟩,
    ⟨logoutUserFulfilled u, rfl, rfl, rfl, rfl, rfl, rfl, rfl, rfl⟩⟩

end UserSlice

theorem strictEq_str_iff (v : JSValue) (t : String) :
    strictEq v (.str t) = true ↔ v = .str t := by
  constructor
  · exact eq_of_strictEq
  · intro h
    subst h
    simp [strictEq]

theorem strictEq_bool_iff (v : JSValue) (b : Bool) :
    strictEq v (.bool b) = true ↔ v = .bool b := by
  constructor
  · exact eq_of_strictEq
  · intro h
    subst h
    simp [strictEq]

namespace UserSlice

/-- The case `loginUser.fulfilled` on a present payload: it returns, and
`registerUser.fulfilled` returns the same state (the two reducers agree on
every state and payload). When `payload.success` is truthy and
`payload.data.user` is present, `userInfo` is that user, `isLoggedIn = true` and
`isAdmin` holds exactly when `user.role` is `"admin"`; otherwise
`isLoggedIn = false`. In both cases `isLoading = false` and `isSuccess = true`.
The payload `{success:true, data:{user:{_id:"u1", role:"admin"}}}` yields
`isLoggedIn = true`, `isAdmin = true` and `userInfo._id = "u1"`. -/
theorem login_fulfilled_sets_session (u : UserState) (payload : JSValue)
    (hp : isNullish payload = false) :
    (∃ u', reducer u (.thunk .loginUser .fulfilled payload) = .ok u' ∧
      reducer u (.thunk .registerUser .fulfilled payload) = .ok u' ∧
      u'.isLoading = false ∧ u'.isSuccess = true ∧
      (truthy (field payload "success") = true →
        truthy (optProp (field payload "data") "user") = true →
        u'.userInfo = field (field payload "data") "user" ∧ u'.isLoggedIn = true ∧
        (u'.isAdmin = true ↔
          field (field (field payload "data") "user") "role" = .str "admin")) ∧
      (¬ (truthy (field payload "success") = true ∧
          truthy (optProp (field payload "data") "user") = true) →
        u'.isLoggedIn = false)) ∧
    (∀ (v : UserState) (q : JSValue),
      reducer v (.thunk .registerUser .fulfilled q) = reducer v (.thunk .loginUser .fulfilled q)) ∧
    (∃ e, reducer u (.thunk .loginUser .fulfilled examplePayload) = .ok e ∧
      e.isLoggedIn = true ∧ e.isAdmin = true ∧ field e.userInfo "_id" = .str "u1") := by
  refine ⟨?_, fun _ _ => rfl, ⟨_, rfl, rfl, rfl, rfl⟩⟩
  have hg : getProp payload "success" = .ok (field payload "success") := getProp_of_present hp _
  by_cases hc : truthy (field payload "success") = true ∧
      truthy (optProp (field payload "data") "user") = true
  · have hcb : (truthy (field payload "success") &&
        truthy (optProp (field payload "data") "user")) = true := by simp [hc.1, hc.2]
    refine ⟨{ u with
        userInfo := field (field payload "data") "user"
        isAdmin := strictEq (field (field (field payload "data") "user") "role") (.str "admin")
        isLoggedIn := true
        isLoading := false
        isSuccess := true },
      by simp [reducer, loginUserFulfilled, hg, hcb],
      by simp [reducer, registerUserFulfilled, hg, hcb],
      rfl, rfl, ?_, ?_⟩
    · intro _ _
      exact ⟨rfl, rfl, strictEq_str_iff _ _⟩
    · intro hn
      exact absurd hc hn
  · have hcb : (truthy (field payload "success") &&
        truthy (optProp (field payload "data") "user")) = false := by
      simpa using hc
    refine ⟨{ u with isLoggedIn := false, isLoading := false, isSuccess := true },
      by simp [reducer, loginUserFulfilled, hg, hcb],
      by simp [reducer, registerUserFulfilled, hg, hcb],
      rfl, rfl, ?_, ?_⟩
    · intro h1 h2
      exact absurd ⟨h1, h2⟩ hc
    · intro _
      rfl

/-- The spec's login example on the initial state. -/
theorem login_fulfilled_sets_session_witness :
    ∃ e, reducer initialState (.thunk .loginUser .fulfilled examplePayload) = .ok e ∧
      e.isLoggedIn = true ∧ e.isAdmin = true ∧ field e.userInfo "_id" = .str "u1" :=
  (login_fulfilled_sets_session initialState examplePayload rfl).2.2

/-- C15. With a present payload, `fetchUser.fulfilled` returns. When
`payload.valid` is not `false` and `payload.user` is present, `userInfo` is
`payload.user`, `isLoggedIn = true` and `isAdmin` holds exactly when
`user.role` is `"admin"`; otherwise, in particular when `payload.valid` is
`false`, `isLoggedIn = false` and `isAdmin = false`. In both cases
`isSuccess = true`, `isLoading = false` and `isError` is unchanged. -/
theorem fetchUser_fulfilled_sets_session (u : UserState) (payload : JSValue)
    (hp : isNullish payload = false) :
    ∃ u', reducer u (.thunk .fetchUser .fulfilled payload) = .ok u' ∧
      u'.isLoading = false ∧ u'.isSuccess = true ∧ u'.isError = u.isError ∧
      (field payload "valid" ≠ .bool false → truthy (field payload "user") = true →
        u'.userInfo = field payload "user" ∧ u'.isLoggedIn = true ∧
        (u'.isAdmin = true ↔ field (field payload "user") "role" = .str "admin")) ∧
      (¬ (field payload "valid" ≠ .bool false ∧ truthy (field payload "user") = true) →
        u'.isLoggedIn = false ∧ u'.isAdmin = false) ∧
      (field payload "valid" = .bool false → u'.isLoggedIn = false ∧ u'.isAdmin = false) := by
  have hg : getProp payload "valid" = .ok (field payload "valid") := getProp_of_present hp _
  have hv : (!strictEq (field payload "valid") (.bool false)) = true ↔
      field payload "valid" ≠ .bool false := by
    rw [Bool.not_eq_true', ← Bool.not_eq_true, strictEq_bool_iff]
  by_cases hc : field payload "valid" ≠ .bool false ∧ truthy (field payload "user") = true
  · have hcb : (!strictEq (field payload "valid") (.bool false) &&
        truthy (field payload "user")) = true := by
      simp only [Bool.and_eq_true]
      exact ⟨hv.mpr hc.1, hc.2⟩
    refine ⟨{ u with
        userInfo := field payload "user"
        isAdmin := strictEq (field (field payload "user") "role") (.str "admin")
        isLoggedIn := true
        isLoading := false
        isSuccess := true },
      by simp [reducer, fetchUserFulfilled, hg, hcb], rfl, rfl, rfl, ?_, ?_, ?_⟩
    · intro _ _
      exact ⟨rfl, rfl, strictEq_str_iff _ _⟩
    · intro hn
      exact absurd hc hn
    · intro h
      exact absurd h hc.1
  · have hcb : (!strictEq (field payload "valid") (.bool false) &&
        truthy (field payload "user")) = false := by
      rw [Bool.eq_false_iff]
      intro h
      simp only [Bool.and_eq_true] at h
      exact hc ⟨hv.mp h.1, h.2⟩
    refine ⟨{ u with isLoggedIn := false, isAdmin := false, isLoading := false, isSuccess := true },
      by simp [reducer, fetchUserFulfilled, hg, hcb], rfl, rfl, rfl, ?_, ?_, ?_⟩
    · intro h1 h2
      exact absurd ⟨h1, h2⟩ hc
    · intro _
      exact ⟨rfl, rfl⟩
    · intro _
      exact ⟨rfl, rfl⟩

/-- C15 at a concrete input: `{valid:false}` on a logged-in admin session
clears `isLoggedIn` and `isAdmin` and still counts as a success. -/
theorem fetchUser_fulfilled_sets_session_witness :
    ∃ e, reducer loggedIn (.thunk .fetchUser .fulfilled (.obj [("valid", .bool false)])) = .ok e ∧
      e.isLoggedIn = false ∧ e.isAdmin = false ∧ e.isSuccess = true := by
  obtain ⟨e, he, -, hs, -, -, -, hf⟩ :=
    fetchUser_fulfilled_sets_session loggedIn (.obj [("valid", .bool false)]) rfl
  exact ⟨e, he, (hf rfl).1, (hf rfl).2, hs⟩

/-- C17, as stated, fails: the payload `{data:{_id:"u2"}}` contains data but no
truthy `success`, and `updateUserProfile.fulfilled` leaves `userInfo` as it
was, here the user `u1`. -/
theorem updateProfile_data_without_success_counterexample :
    truthy (field (.obj [("data", .obj [("_id", .str "u2")])]) "data") = true ∧
    field (field (.obj [("data", .obj [("_id", .str "u2")])]) "data") "_id" = .str "u2" ∧
    ∃ e, reducer loggedIn
        (.thunk .updateUserProfile .fulfilled (.obj [("data", .obj [("_id", .str "u2")])])) =
          .ok e ∧
      e.userInfo = loggedIn.userInfo ∧ field e.userInfo "_id" = .str "u1" :=
  ⟨rfl, rfl, _, rfl, rfl, rfl⟩

/-- C17, amended. With a present payload, `updateUserProfile.fulfilled`
returns. When `payload.success` is truthy and the payload contains data,
`userInfo` is replaced by `payload.data`; otherwise `userInfo` is unchanged. In
both cases `isSuccess = true` and `isLoading = false` are recorded and
`isLoggedIn` and `isAdmin` are unchanged. -/
theorem updateProfile_replaces_user (u : UserState) (payload : JSValue)
    (hp : isNullish payload = false) :
    ∃ u', reducer u (.thunk .updateUserProfile .fulfilled payload) = .ok u' ∧
      u'.isSuccess = true ∧ u'.isLoading = false ∧
      u'.isLoggedIn = u.isLoggedIn ∧ u'.isAdmin = u.isAdmin ∧
      (truthy (field payload "success") = true → truthy (field payload "data") = true →
        u'.userInfo = field payload "data") ∧
      (¬ (truthy (field payload "success") = true ∧ truthy (field payload "data") = true) →
        u'.userInfo = u.userInfo) := by
  have hg : getProp payload "success" = .ok (field payload "success") := getProp_of_present hp _
  by_cases hc : truthy (field payload "success") = true ∧ truthy (field payload "data") = true
  · have hcb : (truthy (field payload "success") && truthy (field payload "data")) = true := by
      simp [hc.1, hc.2]
    refine ⟨{ u with userInfo := field payload "data", isLoading := false, isSuccess := true },
      by simp [reducer, updateUserProfileFulfilled, hg, hcb], rfl, rfl, rfl, rfl, ?_, ?_⟩
    · intro _ _
      rfl
    · intro hn
      exact absurd hc hn
  · have hcb : (truthy (field payload "success") && truthy (field payload "data")) = false := by
      simpa using hc
    refine ⟨{ u with isLoading := false, isSuccess := true },
      by simp [reducer, updateUserProfileFulfilled, hg, hcb], rfl, rfl, rfl, rfl, ?_, ?_⟩
    · intro h1 h2
      exact absurd ⟨h1, h2⟩ hc
    · intro _
      rfl

/-- C17 at a concrete input: `{success:true, data:{_id:"u2"}}` replaces the
user of a logged-in session and keeps the session flags. -/
theorem updateProfile_replaces_user_witness :
    ∃ e, reducer loggedIn (.thunk .updateUserProfile .fulfilled
        (.obj [("success", .bool true), ("data", .obj [("_id", .str "u2")])])) = .ok e ∧
      e.userInfo = .obj [("_id", .str "u2")] ∧ e.isLoggedIn = true ∧ e.isAdmin = true := by
  obtain ⟨e, he, -, -, hl, ha, hd, -⟩ :=
    updateProfile_replaces_user loggedIn
      (.obj [("success", .bool true), ("data", .obj [("_id", .str "u2")])]) rfl
  exact ⟨e, he, hd rfl rfl, hl, ha⟩

end UserSlice

namespace UserSlice

theorem rejectWithMessage_rejected (fallback : String) (error : JSValue) :
    ∃ p, rejectWithMessage fallback error = .rejected p := by
  unfold rejectWithMessage
  split <;> exact ⟨_, rfl⟩

theorem truthy_of_truthy_field {v : JSValue} {key : String} (h : truthy (field v key) = true) :
    truthy v = true := by
  cases v with
  | obj fields => rfl
  | _ => exact absurd h (by simp [field, truthy])

theorem truthy_field_present {v : JSValue} {key : String} (h : truthy (field v key) = true) :
    isNullish v = false :=
  isNullish_of_truthy (truthy_of_truthy_field h)

/-- The secondary step of `fetchUser`, once the token is valid and carries a
user. -/
theorem fetchUser_of_valid_token {engineText : String} {tokenCall : HttpOutcome}
    {userCall : JSValue → HttpOutcome} {b : JSValue} (hb : tokenCall = .ok b)
    (hs : truthy (field b "success") = true) (hu : truthy (tokenUser b) = true) :
    fetchUser engineText tokenCall userCall =
      if truthy (tokenUserId b) then
        match userCall (tokenUserId b) with
        | .error _ => .fulfilled (validUser (tokenUser b))
        | .ok userBody =>
          match getProp userBody "success" with
          | .error _ => .fulfilled (validUser (tokenUser b))
          | .ok userSuccess =>
            if truthy userSuccess && truthy (field userBody "data") then
              .fulfilled (validUser (field userBody "data"))
            else
              .fulfilled (validUser (tokenUser b))
      else
        .fulfilled (validUser (tokenUser b)) := by
  have hbp : isNullish b = false := truthy_field_present hs
  have hd : truthy (field b "data") = true := truthy_of_truthy_field hu
  have hu' : truthy (field (field b "data") "user") = true := hu
  subst hb
  simp only [fetchUser, getProp, hbp, hs, hd, hu', tokenUserId, tokenUser]
  simp [hs]

/-- A fulfilled `fetchUser` always carries `{valid: true, user}` with a
present user. -/
theorem fetchUser_fulfilled_shape {engineText : String} {tokenCall : HttpOutcome}
    {userCall : JSValue → HttpOutcome} {p : JSValue}
    (h : fetchUser engineText tokenCall userCall = .fulfilled p) :
    ∃ v, p = validUser v ∧ truthy v = true := by
  cases hb : tokenCall with
  | error e =>
    obtain ⟨q, hq⟩ := rejectWithMessage_rejected "Kullanıcı bilgileri alınamadı." e
    simp [fetchUser, hb, hq] at h
  | ok b =>
    cases hn : isNullish b with
    | true =>
      obtain ⟨q, hq⟩ :=
        rejectWithMessage_rejected "Kullanıcı bilgileri alınamadı." (newError engineText)
      simp [fetchUser, hb, getProp, hn, hq] at h
    | false =>
      cases hs : truthy (field b "success") with
      | false =>
        obtain ⟨q, hq⟩ :=
          rejectWithMessage_rejected "Kullanıcı bilgileri alınamadı." (newError "Token geçersiz.")
        simp [fetchUser, hb, getProp, hn, hs, hq] at h
      | true =>
        cases hu : truthy (tokenUser b) with
        | false =>
          obtain ⟨q, hq⟩ := rejectWithMessage_rejected "Kullanıcı bilgileri alınamadı."
            (newError "Kullanıcı bilgisi bulunamadı.")
          have hu' : truthy (field (field b "data") "user") = false := hu
          simp [fetchUser, hb, getProp, hn, hs, hu', hq] at h
        | true =>
          rw [fetchUser_of_valid_token hb hs hu] at h
          split at h
          · cases hc : userCall (tokenUserId b) with
            | error e =>
              simp only [hc] at h
              exact ⟨_, (ThunkResult.fulfilled.inj h).symm, hu⟩
            | ok userBody =>
              simp only [hc] at h
              cases hg : getProp userBody "success" with
              | error e =>
                simp only [hg] at h
                exact ⟨_, (ThunkResult.fulfilled.inj h).symm, hu⟩
              | ok userSuccess =>
                simp only [hg] at h
                split at h
                · rename_i hboth
                  simp only [Bool.and_eq_true] at hboth
                  exact ⟨_, (ThunkResult.fulfilled.inj h).symm, hboth.2⟩
                · exact ⟨_, (ThunkResult.fulfilled.inj h).symm, hu⟩
          · exact ⟨_, (ThunkResult.fulfilled.inj h).symm, hu⟩

theorem optProp_of_truthy {v : JSValue} {key : String} (h : truthy (optProp v key) = true) :
    optProp v key = field v key ∧ isNullish v = false := by
  cases hn : isNullish v with
  | true => simp [optProp, hn, truthy] at h
  | false => simp [optProp, hn]

theorem optProp_of_present {v : JSValue} (h : isNullish v = false) (key : String) :
    optProp v key = field v key := by
  simp [optProp, h]

/-- The token step of `fetchUser` fails: the operation is rejected. -/
theorem fetchUser_rejected_of_token {engineText : String} {tokenCall : HttpOutcome}
    {userCall : JSValue → HttpOutcome} {b : JSValue} (hb : tokenCall = .ok b)
    (h : truthy (optProp b "success") = false ∨
      truthy (optProp (optProp b "data") "user") = false) :
    ∃ p, fetchUser engineText tokenCall userCall = .rejected p := by
  subst hb
  cases hn : isNullish b with
  | true =>
    obtain ⟨q, hq⟩ :=
      rejectWithMessage_rejected "Kullanıcı bilgileri alınamadı." (newError engineText)
    exact ⟨q, by simp [fetchUser, getProp, hn, hq]⟩
  | false =>
    cases hs : truthy (field b "success") with
    | false =>
      obtain ⟨q, hq⟩ :=
        rejectWithMessage_rejected "Kullanıcı bilgileri alınamadı." (newError "Token geçersiz.")
      exact ⟨q, by simp [fetchUser, getProp, hn, hs, hq]⟩
    | true =>
      have hu : truthy (field (field b "data") "user") = false := by
        rcases h with h | h
        · rw [optProp_of_present hn, hs] at h
          exact absurd h (by simp)
        · rw [optProp_of_present hn] at h
          cases hd : isNullish (field b "data") with
          | true =>
            cases hv : field b "data" <;> simp_all [isNullish, field, truthy]
          | false =>
            rw [optProp_of_present hd] at h
            exact h
      obtain ⟨q, hq⟩ := rejectWithMessage_rejected "Kullanıcı bilgileri alınamadı."
        (newError "Kullanıcı bilgisi bulunamadı.")
      exact ⟨q, by simp [fetchUser, getProp, hn, hs, hu, hq]⟩

/-- The reducer on a fulfilled `fetchUser`. -/
theorem fetchUserFulfilled_validUser (u : UserState) {v : JSValue} (hv : truthy v = true) :
    ∃ u', reducer u (.thunk .fetchUser .fulfilled (validUser v)) = .ok u' ∧
      u'.isSuccess = true ∧ u'.isLoggedIn = true ∧ u'.userInfo = v := by
  refine ⟨{ u with
      userInfo := v
      isAdmin := strictEq (field v "role") (.str "admin")
      isLoggedIn := true
      isLoading := false
      isSuccess := true }, ?_, rfl, rfl, rfl⟩
  have h1 : field (validUser v) "valid" = .bool true := rfl
  have h2 : field (validUser v) "user" = v := rfl
  have h3 : getProp (validUser v) "valid" = .ok (.bool true) := rfl
  simp [reducer, fetchUserFulfilled, h1, h2, h3, hv, strictEq]

/-- C16. The two HTTP calls of `fetchUser` are inputs: each throws or returns
a response body. The operation is rejected when the verify-token call throws,
when its body has no truthy `success`, and when its body carries no user. When
the token body is valid and carries a user, the operation is fulfilled with
`{valid: true, user}`: the user is the `data` of the `GET /user/{id}` body when
that call is made (the token's user has an id) and returns success with data,
and the token's user in every other case: the call throws, its body lacks
success or data, or the token's user has no id. Applying any fulfilled signal
of `fetchUser` to any state yields `isSuccess = true` and `isLoggedIn = true`;
so does the spec's example, a valid token whose secondary call throws. -/
theorem fetchUser_two_step (engineText : String) (tokenCall : HttpOutcome)
    (userCall : JSValue → HttpOutcome) (u : UserState) :
    (∀ e, tokenCall = .error e → ∃ p, fetchUser engineText tokenCall userCall = .rejected p) ∧
    (∀ b, tokenCall = .ok b → truthy (optProp b "success") = false →
      ∃ p, fetchUser engineText tokenCall userCall = .rejected p) ∧
    (∀ b, tokenCall = .ok b → truthy (optProp (optProp b "data") "user") = false →
      ∃ p, fetchUser engineText tokenCall userCall = .rejected p) ∧
    (∀ b, tokenCall = .ok b → truthy (field b "success") = true →
      truthy (tokenUser b) = true →
      (∀ b2, truthy (tokenUserId b) = true → userCall (tokenUserId b) = .ok b2 →
        truthy (optProp b2 "success") = true → truthy (optProp b2 "data") = true →
        fetchUser engineText tokenCall userCall = .fulfilled (validUser (field b2 "data"))) ∧
      (∀ b2, userCall (tokenUserId b) = .ok b2 →
        ¬ (truthy (optProp b2 "success") = true ∧ truthy (optProp b2 "data") = true) →
        fetchUser engineText tokenCall userCall = .fulfilled (validUser (tokenUser b))) ∧
      (∀ e, userCall (tokenUserId b) = .error e →
        fetchUser engineText tokenCall userCall = .fulfilled (validUser (tokenUser b))) ∧
      (truthy (tokenUserId b) = false →
        fetchUser engineText tokenCall userCall = .fulfilled (validUser (tokenUser b)))) ∧
    (∀ p, fetchUser engineText tokenCall userCall = .fulfilled p →
      ∃ u', reducer u (.thunk .fetchUser .fulfilled p) = .ok u' ∧
        u'.isSuccess = true ∧ u'.isLoggedIn = true) ∧
    (∀ e, fetchUser engineText (.ok examplePayload) (fun _ => .error e) =
        .fulfilled (validUser (tokenUser examplePayload)) ∧
      ∃ u', reducer u (.thunk .fetchUser .fulfilled (validUser (tokenUser examplePayload))) =
          .ok u' ∧
        u'.isSuccess = true ∧ u'.isLoggedIn = true) := by
  refine ⟨?_, ?_, ?_, ?_, ?_, ?_⟩
  · intro e he
    obtain ⟨q, hq⟩ := rejectWithMessage_rejected "Kullanıcı bilgileri alınamadı." e
    exact ⟨q, by simp [fetchUser, he, hq]⟩
  · intro b hb h
    exact fetchUser_rejected_of_token hb (Or.inl h)
  · intro b hb h
    exact fetchUser_rejected_of_token hb (Or.inr h)
  · intro b hb hs hu
    have hmain := @fetchUser_of_valid_token engineText tokenCall userCall b hb hs hu
    refine ⟨?_, ?_, ?_, ?_⟩
    · intro b2 hid hc h1 h2
      obtain ⟨e1, hn⟩ := optProp_of_truthy h1
      rw [e1] at h1
      rw [optProp_of_present hn] at h2
      rw [hmain]
      simp [hid, hc, getProp, hn, h1, h2]
    · intro b2 hc hnot
      rw [hmain]
      split
      · cases hn : isNullish b2 with
        | true => simp [hc, getProp, hn]
        | false =>
          rw [optProp_of_present hn, optProp_of_present hn] at hnot
          have hf : (truthy (field b2 "success") && truthy (field b2 "data")) = false := by
            simpa using hnot
          simp [hc, getProp, hn, hf]
      · rfl
    · intro e hc
      rw [hmain]
      split
      · simp [hc]
      · rfl
    · intro hid
      rw [hmain]
      simp [hid]
  · intro p hp
    obtain ⟨v, rfl, hv⟩ := fetchUser_fulfilled_shape hp
    obtain ⟨u', h1, h2, h3, -⟩ := fetchUserFulfilled_validUser u hv
    exact ⟨u', h1, h2, h3⟩
  · intro e
    refine ⟨rfl, ?_⟩
    obtain ⟨u', h1, h2, h3, -⟩ :=
      fetchUserFulfilled_validUser u (v := tokenUser examplePayload) rfl
    exact ⟨u', h1, h2, h3⟩

end UserSlice

/-- C18: the code at failing inputs. A 2xx response without `data` makes the
thunk `addNewPost` fulfil with an absent payload, and on the initial state the
reducer then throws instead of returning a state; so do `updatePost.fulfilled`
with an absent payload, `upvotePost.fulfilled` with an absent payload on a
non-empty list, and every list operation after `fetchPostsByCategory.fulfilled`
has stored an absent payload. In the user slice a `null` response body makes
`loginUser` fulfil with `null`, and the reducers of loginUser, registerUser,
fetchUser and updateUserProfile throw on it. -/
theorem reducers_throw_on_absent_payload :
    (PostsSlice.addNewPost "" (.ok (.obj [("success", .bool true)])) = .fulfilled .undefined ∧
      PostsSlice.Reachable PostsSlice.initialState ∧
      PostsSlice.reducer PostsSlice.initialState (.thunk .addNewPost .fulfilled .undefined) =
        .error .typeError ∧
      PostsSlice.reducer PostsSlice.initialState (.thunk .updatePost .fulfilled .undefined) =
        .error .typeError) ∧
    (PostsSlice.Reachable
        { PostsSlice.initialState with posts := .arr [PostsSlice.postA], isSuccess := true } ∧
      PostsSlice.reducer
        { PostsSlice.initialState with posts := .arr [PostsSlice.postA], isSuccess := true }
        (.thunk .upvotePost .fulfilled .undefined) = .error .typeError) ∧
    (PostsSlice.Reachable (PostsSlice.fetchPostsByCategoryFulfilled PostsSlice.initialState
        .undefined) ∧
      PostsSlice.reducer (PostsSlice.fetchPostsByCategoryFulfilled PostsSlice.initialState
        .undefined) (.removePost (.str "a")) = .error .typeError ∧
      PostsSlice.reducer (PostsSlice.fetchPostsByCategoryFulfilled PostsSlice.initialState
        .undefined) (.thunk .fetchPostById .fulfilled PostsSlice.postA) = .error .typeError) ∧
    (UserSlice.loginUser (.obj []) (.ok .null) = .fulfilled .null ∧
      UserSlice.Reachable UserSlice.initialState ∧
      UserSlice.reducer UserSlice.initialState (.thunk .loginUser .fulfilled .null) =
        .error .typeError ∧
      UserSlice.reducer UserSlice.initialState (.thunk .registerUser .fulfilled .null) =
        .error .typeError ∧
      UserSlice.reducer UserSlice.initialState (.thunk .fetchUser .fulfilled .undefined) =
        .error .typeError ∧
      UserSlice.reducer UserSlice.initialState (.thunk .updateUserProfile .fulfilled .null) =
        .error .typeError) := by
  refine ⟨⟨rfl, .init, rfl, rfl⟩, ⟨?_, rfl⟩, ⟨?_, rfl, rfl⟩, ⟨rfl, .init, rfl, rfl, rfl, rfl⟩⟩
  · exact .step (.thunk .addNewPost .fulfilled PostsSlice.postA) .init rfl
  · exact .step (.thunk .fetchPostsByCategory .fulfilled .undefined) .init rfl

/-- C19, as stated, fails for the user slice: when the client throws
`{message: "Network Error", code: "ERR_NETWORK"}`, `loginUser` rejects with the
string `"Network Error"`, which is not a pair and carries no code, where the
post thunk `fetchPosts` rejects with the pair of that message and that code. -/
theorem user_rejection_is_not_a_pair_counterexample :
    UserSlice.loginUser (.obj []) (.error networkError) = .rejected (.str "Network Error") ∧
    (∀ fields, JSValue.str "Network Error" ≠ .obj fields) ∧
    optProp (.str "Network Error") "code" = .undefined ∧
    PostsSlice.fetchPosts (.obj []) (.error networkError) =
      .rejected (.obj [("message", .str "Network Error"), ("code", .str "ERR_NETWORK")]) := by
  refine ⟨rfl, ?_, rfl, rfl⟩
  intro fields h
  cases h

/-- C19, amended. Every dispatcher catches the error the HTTP client throws
and produces a rejected signal. In the post slice the payload is the pair
`{message, code}`: the error's message when supplied (truthy), else the
operation's default text, and the error's code when supplied, else
`"UNKNOWN_ERROR"`. In the user slice the payload is the message alone: the
error's message when supplied, else the operation's fallback text; no code is
carried. -/
theorem dispatchers_reject_with_message (engineText : String) (arg error : JSValue)
    (tp : PostsSlice.Thunk) (tu : UserSlice.Thunk)
    (harg : isNullish arg = false) (herror : isNullish error = false) :
    PostsSlice.dispatcher engineText arg (.error error) tp =
      .rejected (.obj [
        ("message", if truthy (field error "message") then field error "message"
          else .str (PostsSlice.defaultMessage tp)),
        ("code", if truthy (field error "code") then field error "code"
          else .str "UNKNOWN_ERROR")]) ∧
    UserSlice.dispatcher engineText arg (.error error) tu =
      .rejected (if truthy (field error "message") then field error "message"
        else .str (UserSlice.fallbackMessage tu)) := by
  constructor
  · cases tp <;>
      simp [PostsSlice.dispatcher, PostsSlice.fetchPosts, PostsSlice.fetchPostById,
        PostsSlice.upvotePost, PostsSlice.downvotePost, PostsSlice.fetchPostsByCategory,
        PostsSlice.addNewPost, PostsSlice.updatePost, PostsSlice.deletePost,
        PostsSlice.incrementPostView, PostsSlice.returnData, PostsSlice.rejectWithPair,
        PostsSlice.defaultMessage, getProp, harg, herror, jsOr]
  · cases tu <;>
      simp [UserSlice.dispatcher, UserSlice.loginUser, UserSlice.logoutUser,
        UserSlice.fetchUser, UserSlice.registerUser, UserSlice.updateUserProfile,
        UserSlice.rejectWithMessage, UserSlice.fallbackMessage, getProp, harg, herror, jsOr]

/-- C19 at a concrete input: a thrown error without message or code makes
`deletePost` reject with its default text and `"UNKNOWN_ERROR"`, and
`logoutUser` reject with its fallback text. -/
theorem dispatchers_reject_with_message_witness :
    PostsSlice.deletePost "" (.error (.obj [])) =
      .rejected (.obj [("message", .str "Post silerken hata oluştu."),
        ("code", .str "UNKNOWN_ERROR")]) ∧
    UserSlice.logoutUser (.error (.obj [])) = .rejected (.str "Çıkış yapılamadı.") :=
  dispatchers_reject_with_message "" (.obj []) (.obj []) .deletePost .logoutUser rfl rfl

theorem strictEq_comm (a b : JSValue) : strictEq a b = strictEq b a := by
  cases a <;> cases b <;> simp [strictEq, Bool.beq_comm]

theorem sameId_ok {u q : JSValue} {b : Bool} (h : sameId u q = .ok b) :
    b = idMatches u q := by
  unfold sameId getProp at h
  cases hq : isNullish q <;> cases hu : isNullish u <;> simp [hq, hu] at h
  exact h.symm

theorem filter_sublist_of_ok {cb : JSValue → Except JSError Bool} {ps kept : List JSValue}
    (h : filter cb ps = .ok kept) : kept.Sublist ps := by
  induction ps generalizing kept with
  | nil =>
    simp [filter] at h
    subst h
    exact List.Sublist.refl _
  | cons x rest ih =>
    unfold filter at h
    cases hx : cb x with
    | error e => simp [hx] at h
    | ok keep =>
      cases hr : filter cb rest with
      | error e => simp [hx, hr] at h
      | ok r =>
        simp only [hx, hr] at h
        have hsub := ih hr
        cases keep with
        | true =>
          simp at h
          subst h
          exact hsub.cons₂ x
        | false =>
          simp at h
          subst h
          exact hsub.cons x

theorem distinctIds_set {u : JSValue} {ps : List JSValue} {i : Nat}
    (hf : findIndex (sameId u) ps = .ok (some i)) (hd : DistinctIds ps) :
    DistinctIds (ps.set i u) := by
  obtain ⟨hi, hat, -⟩ := findIndex_some_spec hf
  have hm : idMatches u (ps.get ⟨i, hi⟩) = true := (sameId_ok hat).symm
  have hid : field (ps.get ⟨i, hi⟩) "_id" = field u "_id" := eq_of_strictEq hm
  have hmap : (ps.set i u).map (fun p => field p "_id") = ps.map (fun p => field p "_id") := by
    apply List.ext_getElem
    · simp
    · intro n h1 h2
      simp only [List.getElem_map, List.getElem_set]
      split
      · rename_i hin
        subst hin
        simpa using hid.symm
      · rfl
  unfold DistinctIds at hd ⊢
  have h1 := (List.pairwise_map (f := fun p => field p "_id")
    (R := fun a b => strictEq a b = false) (l := ps)).mpr hd
  rw [← hmap] at h1
  exact List.pairwise_map.mp h1

theorem distinctIds_append {u : JSValue} {ps : List JSValue}
    (hf : findIndex (sameId u) ps = .ok none) (hd : DistinctIds ps) :
    DistinctIds (ps ++ [u]) := by
  have hno := findIndex_none_spec hf
  unfold DistinctIds at hd ⊢
  rw [List.pairwise_append]
  refine ⟨hd, List.pairwise_singleton _ _, ?_⟩
  intro a ha b hb
  have hbu : b = u := by simpa using hb
  subst hbu
  exact (sameId_ok (hno a ha)).symm

namespace PostsSlice

theorem dispatch_of_ok {s s' : PostsState} {a : Action} (h : reducer s a = .ok s') :
    dispatch s a = s' := by
  simp [dispatch, h]

theorem dispatch_of_error {s : PostsState} {a : Action} {e : JSError}
    (h : reducer s a = .error e) : dispatch s a = s := by
  simp [dispatch, h]

theorem distinct_replaceFulfilled {s : PostsState} {payload : JSValue} (h : HasDistinctIds s) :
    ∀ r, replaceFulfilled s payload = r →
      HasDistinctIds (match r with | .ok s' => s' | .error _ => s) := by
  obtain ⟨ps, hposts, hd⟩ := h
  intro r hr
  subst hr
  unfold replaceFulfilled
  simp only [hposts, asArray]
  cases hf : findIndex (sameId payload) ps with
  | error e => exact ⟨ps, hposts, hd⟩
  | ok o =>
    cases o with
    | none => exact ⟨ps, hposts, hd⟩
    | some i => exact ⟨_, rfl, distinctIds_set hf hd⟩

theorem distinct_pair : HasDistinctIds (stateWith [postB, postA]) := by
  refine ⟨_, rfl, ?_⟩
  simp [DistinctIds, postA, postB, field, strictEq, List.lookup]

/-- C20, as stated, fails for addNewPost: the list `[a]` has distinct ids, and
`addNewPost.fulfilled` with a post that has the id `a` puts it in front, giving
a list in which two posts have the id `a`. -/
theorem addNewPost_repeats_identity_counterexample :
    HasDistinctIds (stateWith [postA]) ∧
    ∃ s', reducer (stateWith [postA]) (.thunk .addNewPost .fulfilled postA2) = .ok s' ∧
      s'.posts = .arr [postA2, postA] ∧ ¬ HasDistinctIds s' := by
  refine ⟨⟨_, rfl, by simp [DistinctIds]⟩, _, rfl, rfl, ?_⟩
  rintro ⟨ps, hps, hd⟩
  have hps' : JSValue.arr [postA2, postA] = JSValue.arr ps := hps
  cases hps'
  simp [DistinctIds, postA, postA2, field, strictEq, List.lookup] at hd

/-- C20, amended. From a state whose posts have pairwise-distinct ids, the
store again holds posts with pairwise-distinct ids after
`fetchPostById.fulfilled`, `upvotePost.fulfilled`, `downvotePost.fulfilled`,
`updatePost.fulfilled`, `incrementPostView.fulfilled`, `deletePost.fulfilled`
and `removePost`, with any payload; and after `addNewPost.fulfilled` when the
`_id` of the new post (`payload.post` when present, else the payload) equals
the `_id` of no post of the list. -/
theorem identity_stays_unique (s : PostsState) (payload : JSValue) (h : HasDistinctIds s) :
    HasDistinctIds (dispatch s (.thunk .fetchPostById .fulfilled payload)) ∧
    HasDistinctIds (dispatch s (.thunk .upvotePost .fulfilled payload)) ∧
    HasDistinctIds (dispatch s (.thunk .downvotePost .fulfilled payload)) ∧
    HasDistinctIds (dispatch s (.thunk .updatePost .fulfilled payload)) ∧
    HasDistinctIds (dispatch s (.thunk .incrementPostView .fulfilled payload)) ∧
    HasDistinctIds (dispatch s (.thunk .deletePost .fulfilled payload)) ∧
    HasDistinctIds (dispatch s (.removePost payload)) ∧
    (∀ ps, s.posts = .arr ps →
      (∀ q ∈ ps, idMatches (jsOr (field payload "post") payload) q = false) →
      HasDistinctIds (dispatch s (.thunk .addNewPost .fulfilled payload))) := by
  have hrep : HasDistinctIds (match replaceFulfilled s payload with
      | .ok s' => s' | .error _ => s) := distinct_replaceFulfilled h _ rfl
  obtain ⟨ps, hposts, hd⟩ := h
  refine ⟨?_, hrep, hrep, ?_, hrep, ?_, ?_, ?_⟩
  · -- fetchPostById
    simp only [dispatch, reducer, fetchPostByIdFulfilled]
    cases hp : truthy payload with
    | false => simpa using ⟨ps, hposts, hd⟩
    | true =>
      simp only [hposts, asArray, Bool.not_true, Bool.false_eq_true, if_false]
      cases hf : findIndex (sameId payload) ps with
      | error e => exact ⟨ps, hposts, hd⟩
      | ok o =>
        cases o with
        | none => exact ⟨_, rfl, distinctIds_append hf hd⟩
        | some i => exact ⟨_, rfl, distinctIds_set hf hd⟩
  · -- updatePost
    simp only [dispatch, reducer, updatePostFulfilled]
    cases hg : getProp payload "post" with
    | error e => exact ⟨ps, hposts, hd⟩
    | ok post =>
      simp only [hposts, asArray]
      cases hf : findIndex (sameId (jsOr post payload)) ps with
      | error e => exact ⟨ps, hposts, hd⟩
      | ok o =>
        cases o with
        | none => exact ⟨ps, rfl, hd⟩
        | some i => exact ⟨_, rfl, distinctIds_set hf hd⟩
  · -- deletePost
    simp only [dispatch, reducer, deletePostFulfilled, hposts, asArray]
    cases hf : filter (otherId payload) ps with
    | error e => exact ⟨ps, hposts, hd⟩
    | ok kept => exact ⟨kept, rfl, List.Pairwise.sublist (filter_sublist_of_ok hf) hd⟩
  · -- removePost
    simp only [dispatch, reducer, removePost, hposts, asArray]
    cases hf : filter (otherId payload) ps with
    | error e => exact ⟨ps, hposts, hd⟩
    | ok kept => exact ⟨kept, rfl, List.Pairwise.sublist (filter_sublist_of_ok hf) hd⟩
  · -- addNewPost
    intro ps' hposts' hno
    have hps : ps' = ps := by
      rw [hposts] at hposts'
      exact (JSValue.arr.inj hposts').symm
    subst hps
    simp only [dispatch, reducer, addNewPostFulfilled]
    cases hn : isNullish payload with
    | true => simpa [getProp, hn] using ⟨ps', hposts, hd⟩
    | false =>
      simp only [getProp, hn, hposts, asArray, Bool.false_eq_true, if_false]
      refine ⟨_, rfl, ?_⟩
      unfold DistinctIds
      rw [List.pairwise_cons]
      refine ⟨?_, hd⟩
      intro q hq
      rw [strictEq_comm]
      exact hno q hq

/-- C20 at a concrete input: upvoting post `a` in `[b, a]` keeps the ids
distinct. -/
theorem identity_stays_unique_witness :
    HasDistinctIds (dispatch (stateWith [postB, postA]) (.thunk .upvotePost .fulfilled postA2)) :=
  (identity_stays_unique (stateWith [postB, postA]) postA2 distinct_pair).2.1

end PostsSlice

namespace UserSlice

theorem reachable_loggedIn : Reachable loggedIn :=
  .step (.thunk .loginUser .fulfilled examplePayload) .init rfl

/-- One step of the user reducer keeps "logged in implies a present user". -/
theorem step_keeps_user {u u' : UserState} {a : Action}
    (hinv : u.isLoggedIn = true → truthy u.userInfo = true)
    (h : reducer u a = .ok u') : u'.isLoggedIn = true → truthy u'.userInfo = true := by
  cases a with
  | clearState => cases h; exact hinv
  | clearUserState =>
    cases h
    intro hl
    exact absurd hl (by simp [clearUserState])
  | thunk t phase payload =>
    cases phase with
    | pending =>
      cases t <;> (cases h; exact hinv)
    | rejected =>
      cases t <;> (cases h; exact hinv)
    | fulfilled =>
      cases t with
      | logoutUser =>
        cases h
        intro hl
        exact absurd hl (by simp [logoutUserFulfilled])
      | loginUser =>
        simp only [reducer, loginUserFulfilled] at h
        cases hg : getProp payload "success" with
        | error e => simp [hg] at h
        | ok success =>
          simp only [hg] at h
          cases hc : (truthy success && truthy (optProp (field payload "data") "user")) with
          | false =>
            simp only [hc] at h
            cases h
            intro hl
            exact absurd hl (by simp)
          | true =>
            simp only [hc, if_true] at h
            cases h
            intro _
            simp only [Bool.and_eq_true] at hc
            have := optProp_of_truthy hc.2
            rw [this.1] at hc
            exact hc.2
      | registerUser =>
        simp only [reducer, registerUserFulfilled] at h
        cases hg : getProp payload "success" with
        | error e => simp [hg] at h
        | ok success =>
          simp only [hg] at h
          cases hc : (truthy success && truthy (optProp (field payload "data") "user")) with
          | false =>
            simp only [hc] at h
            cases h
            intro hl
            exact absurd hl (by simp)
          | true =>
            simp only [hc, if_true] at h
            cases h
            intro _
            simp only [Bool.and_eq_true] at hc
            have := optProp_of_truthy hc.2
            rw [this.1] at hc
            exact hc.2
      | fetchUser =>
        simp only [reducer, fetchUserFulfilled] at h
        cases hg : getProp payload "valid" with
        | error e => simp [hg] at h
        | ok valid =>
          simp only [hg] at h
          cases hc : (!strictEq valid (.bool false) && truthy (field payload "user")) with
          | false =>
            simp only [hc] at h
            cases h
            intro hl
            exact absurd hl (by simp)
          | true =>
            simp only [hc, if_true] at h
            cases h
            intro _
            simp only [Bool.and_eq_true] at hc
            exact hc.2
      | updateUserProfile =>
        simp only [reducer, updateUserProfileFulfilled] at h
        cases hg : getProp payload "success" with
        | error e => simp [hg] at h
        | ok success =>
          simp only [hg] at h
          cases hc : (truthy success && truthy (field payload "data")) with
          | false =>
            simp only [hc] at h
            cases h
            exact hinv
          | true =>
            simp only [hc, if_true] at h
            cases h
            intro _
            simp only [Bool.and_eq_true] at hc
            exact hc.2

theorem reachable_keeps_user {u : UserState} (h : Reachable u) :
    u.isLoggedIn = true → truthy u.userInfo = true := by
  induction h with
  | init => intro hl; exact absurd hl (by simp [initialState])
  | step a _ hstep ih => exact step_keeps_user ih hstep

/-- C21: the code at a failing input. A 2xx login response `{success:false}`
makes the thunk `loginUser` fulfil with it. Applied to the reachable session of
a logged-in admin, `loginUser.fulfilled` (and likewise `registerUser.fulfilled`)
sets `isLoggedIn = false` and leaves `isAdmin = true`, a reachable state with
`isAdmin` and without `isLoggedIn`. The sibling `fetchUser.fulfilled` clears
both flags in its no-session branch. -/
theorem admin_flag_survives_failed_login :
    loginUser (.obj []) (.ok (.obj [("success", .bool false)])) =
      .fulfilled (.obj [("success", .bool false)]) ∧
    Reachable loggedIn ∧ loggedIn.isAdmin = true ∧ loggedIn.isLoggedIn = true ∧
    (∃ u', reducer loggedIn (.thunk .loginUser .fulfilled (.obj [("success", .bool false)])) =
        .ok u' ∧
      Reachable u' ∧ u'.isAdmin = true ∧ u'.isLoggedIn = false) ∧
    (∃ u', reducer loggedIn (.thunk .registerUser .fulfilled (.obj [("success", .bool false)])) =
        .ok u' ∧
      Reachable u' ∧ u'.isAdmin = true ∧ u'.isLoggedIn = false) ∧
    (∃ u', reducer loggedIn (.thunk .fetchUser .fulfilled (.obj [("valid", .bool false)])) =
        .ok u' ∧
      u'.isAdmin = false ∧ u'.isLoggedIn = false) := by
  refine ⟨rfl, reachable_loggedIn, rfl, rfl, ⟨_, rfl, ?_, rfl, rfl⟩, ⟨_, rfl, ?_, rfl, rfl⟩,
    ⟨_, rfl, rfl, rfl⟩⟩
  · exact .step (.thunk .loginUser .fulfilled (.obj [("success", .bool false)]))
      reachable_loggedIn rfl
  · exact .step (.thunk .registerUser .fulfilled (.obj [("success", .bool false)]))
      reachable_loggedIn rfl

/-- C22. In every state reachable from the initial state by any sequence of
the slice's signals with arbitrary payloads, `isLoggedIn = true` implies that
`userInfo` is present, so neither `null` nor `undefined`. And for every state
and signal on which the reducer returns: a signal that turns `isLoggedIn` from
false to true stores a present user, and a signal that leaves `isLoggedIn` true
on a state with a present user leaves a present user. -/
theorem loggedIn_implies_user (u : UserState) (h : Reachable u) :
    (u.isLoggedIn = true →
      truthy u.userInfo = true ∧ u.userInfo ≠ .null ∧ u.userInfo ≠ .undefined) ∧
    (∀ (v v' : UserState) (a : Action), reducer v a = .ok v' →
      (v.isLoggedIn = false → v'.isLoggedIn = true → truthy v'.userInfo = true) ∧
      (truthy v.userInfo = true → v'.isLoggedIn = true → truthy v'.userInfo = true)) := by
  constructor
  · intro hl
    have ht := reachable_keeps_user h hl
    refine ⟨ht, ?_, ?_⟩
    · intro hn
      rw [hn] at ht
      exact absurd ht (by simp [truthy])
    · intro hn
      rw [hn] at ht
      exact absurd ht (by simp [truthy])
  · intro v v' a hstep
    constructor
    · intro hv
      exact step_keeps_user (fun hl => absurd hl (by simp [hv])) hstep
    · intro hv
      exact step_keeps_user (fun _ => hv) hstep

/-- C22 at a concrete input: the session after the spec's login example is
reachable and logged in, and its user is present. -/
theorem loggedIn_implies_user_witness :
    Reachable loggedIn ∧ loggedIn.isLoggedIn = true ∧
    truthy loggedIn.userInfo = true ∧ loggedIn.userInfo ≠ .null ∧
    loggedIn.userInfo ≠ .undefined :=
  ⟨reachable_loggedIn, rfl, (loggedIn_implies_user loggedIn reachable_loggedIn).1 rfl⟩

end UserSlice

namespace PostsSlice

/-- C6, as stated, fails for a post whose `_id` is an object: `===` compares
objects by reference, so the stored post never matches the fetched one. Fetching
`{_id:{x:1}}` into the empty list appends it, and fetching it again appends it a
second time: the state after two applications holds two posts and differs from
the state after one. -/
theorem object_id_appended_twice_counterexample :
    reducer initialState (.thunk .fetchPostById .fulfilled objectIdPost) =
      .ok (stateWith [objectIdPost]) ∧
    reducer (stateWith [objectIdPost]) (.thunk .fetchPostById .fulfilled objectIdPost) =
      .ok (stateWith [objectIdPost, objectIdPost]) ∧
    stateWith [objectIdPost, objectIdPost] ≠ stateWith [objectIdPost] := by
  refine ⟨rfl, rfl, ?_⟩
  intro h
  have h1 : (stateWith [objectIdPost, objectIdPost]).posts = (stateWith [objectIdPost]).posts :=
    congrArg PostsState.posts h
  have h2 := JSValue.arr.inj h1
  have h3 := congrArg List.length h2
  simp at h3

/-- C10: the code at a failing input. A 2xx response without `data` makes the
thunk `addNewPost` fulfil with an absent payload. After `addNewPost.pending`
the reducer then throws on `action.payload.post` instead of returning a state:
nothing is prepended, and the store keeps `isLoading = true` and
`isSuccess = false`. The sibling `fetchPostById.fulfilled` returns the state
unchanged on an absent payload. -/
theorem addNewPost_absent_payload_throws :
    addNewPost "" (.ok (.obj [("success", .bool true)])) = .fulfilled .undefined ∧
    Reachable (handlePending initialState) ∧
    reducer (handlePending initialState) (.thunk .addNewPost .fulfilled .undefined) =
      .error .typeError ∧
    (dispatch (handlePending initialState) (.thunk .addNewPost .fulfilled .undefined)).posts =
      .arr [] ∧
    (dispatch (handlePending initialState) (.thunk .addNewPost .fulfilled .undefined)).isLoading =
      true ∧
    (dispatch (handlePending initialState) (.thunk .addNewPost .fulfilled .undefined)).isSuccess =
      false ∧
    reducer (handlePending initialState) (.thunk .fetchPostById .fulfilled .undefined) =
      .ok (handlePending initialState) :=
  ⟨rfl, .step (.thunk .addNewPost .pending .undefined) .init rfl, rfl, rfl, rfl, rfl, rfl⟩

end PostsSlice

namespace UserSlice

/-- C14: the code at a failing input. A 2xx login response whose body is
`null` makes the thunk `loginUser` fulfil with `null`. After `loginUser.pending`
the reducer then throws on `action.payload.success` instead of returning a
state, and so does `registerUser.fulfilled`: neither `isLoading = false` nor
`isSuccess = true` is recorded, the store keeps `isLoading = true`. The case
guards `data` with `?.` but not the payload. -/
theorem login_absent_payload_throws :
    loginUser (.obj []) (.ok .null) = .fulfilled .null ∧
    registerUser (.obj []) (.ok .null) = .fulfilled .null ∧
    Reachable (pendingCase initialState) ∧
    (pendingCase initialState).isLoading = true ∧
    (pendingCase initialState).isSuccess = false ∧
    reducer (pendingCase initialState) (.thunk .loginUser .fulfilled .null) =
      .error .typeError ∧
    reducer (pendingCase initialState) (.thunk .registerUser .fulfilled .null) =
      .error .typeError :=
  ⟨rfl, rfl, .step (.thunk .loginUser .pending .undefined) .init rfl, rfl, rfl, rfl, rfl⟩

end UserSlice

end FinanceBlog
